import Mathlib

/-!
Verification development for the vdebug DBGP client.

The Python sources are embedded shallowly:

* Python `str` values and `bytes` values are both modelled as `List Nat`
  (Unicode code points resp. byte values).  `pyStr` converts a Lean string
  literal into that representation.
* The byte stream feeding `socket.recv` is modelled as a `List Nat`; a recv
  of `n` bytes returns up to `n` bytes from the front of the list, and an
  exhausted list models a closed peer (`recv` returning the empty string).
* Fallible Python code is modelled with `Except PyErr`, one constructor per
  Python exception class that can escape the modelled code.
* The behaviour of the Python library functions used by the source
  (`base64.encodebytes`, `base64.b64decode`/`decodebytes` alias
  `binascii.a2b_base64` in its default lenient mode, `str.encode("utf-8")`,
  `bytes.decode("utf-8")`, `str.split`, `str.strip`, `int(...)`) is modelled
  byte for byte.
-/

namespace Vdebug


/-- Convert a Lean string literal to the code-point list model of a Python
string.  All strings appearing in the sources are ASCII. -/
def pyStr (s : String) : List Nat := s.data.map Char.toNat

/-- Python exceptions that can escape the modelled code paths. -/
inductive PyErr where
  /-- `EOFError(Socket Closed)`: a recv returned zero bytes. -/
  | eofError : PyErr
  /-- `ValueError`: `int(...)` applied to a non-numeric string. -/
  | valueError : PyErr
  /-- `IndexError`: sequence index out of range. -/
  | indexError : PyErr
  /-- `binascii.Error`: invalid base64 input (bad padding and similar). -/
  | binasciiError : PyErr
  /-- `UnicodeEncodeError`: `str.encode("utf-8")` on a lone surrogate. -/
  | unicodeEncodeError : PyErr
  /-- `UnicodeDecodeError`: `bytes.decode("utf-8")` on invalid UTF-8. -/
  | unicodeDecodeError : PyErr
  /-- `DBGPError(message_text, code_attribute)` raised by
  `Response.__parse_error`; the message text of the nested message element
  (possibly `None`) and the `code` attribute string. -/
  | dbgpError (msg : Option (List Nat)) (code : List Nat) : PyErr
  /-- `DBGPError(msg, 1)` raised with the integer code 1 (missing namespace,
  or missing error element). -/
  | dbgpErrorInt (msg : List Nat) : PyErr
  /-- `ResponseError(msg, response)`. -/
  | responseError (msg : List Nat) : PyErr
  /-- `CmdNotImplementedError(Command not implemented)`. -/
  | cmdNotImplemented : PyErr
  /-- `EvalError()`. -/
  | evalError : PyErr
  deriving DecidableEq

/-- `str.isdigit` on a single ASCII character (the length-prefix bytes). -/
def isPyDigit (c : Nat) : Prop := 48 ≤ c ∧ c ≤ 57

instance (c : Nat) : Decidable (isPyDigit c) := by unfold isPyDigit; infer_instance

/-- Numeric value of an ASCII digit string, as accumulated by `int(...)`. -/
def decimalValue (ds : List Nat) : Nat := ds.foldl (fun a c => a * 10 + (c - 48)) 0

/-- Model of Python `int(s)` restricted to the shapes that occur here: a
non-empty string of ASCII decimal digits parses to its value, anything else
is modelled as a `ValueError` (`none`). -/
def pyInt? (s : List Nat) : Option Nat :=
  if s ≠ [] ∧ ∀ c ∈ s, isPyDigit c then some (decimalValue s) else none

/-- The ASCII decimal representation of a natural number (the digits a DBGP
peer puts in front of a framed message). -/
def natToDecimal (n : Nat) : List Nat :=
  if n = 0 then [48] else ((Nat.digits 10 n).map (· + 48)).reverse

/-! ## Transport framing — `Connection` in `plugin/dbgp.py` -/

/-- The state built by `Connection.__init__` (`plugin/dbgp.py`).  Note that
the source assigns the literal `9000` to `self.port`, not the `port`
argument. -/
structure Connection where
  host : List Nat
  port : Nat
  timeout : Nat

/-- `Connection.__init__(self, host='', port=9000, timeout=30)`:
`self.port = 9000; self.host = host; self.timeout = timeout`. -/
def Connection.init (host : List Nat) (port : Nat) (timeout : Nat) : Connection :=
  let _ := port
  { host := host, port := 9000, timeout := timeout }

/-- `Connection.__recv_length`: read single bytes until a NUL, accumulating
the bytes that satisfy `isdigit` and silently passing over every other
byte; at the NUL return `int(accumulated)`.  `int` of the empty string is a
`ValueError`; an empty recv is an `EOFError`.  Returns the parsed length
and the rest of the stream. -/
def recvLength (s : List Nat) (acc : List Nat) : Except PyErr (Nat × List Nat) :=
  match s with
  | [] => .error .eofError
  | c :: rest =>
    if c = 0 then
      match pyInt? acc with
      | some n => .ok (n, rest)
      | none => .error .valueError
    else if isPyDigit c then recvLength rest (acc ++ [c])
    else recvLength rest acc

/-- `Connection.__recv_body`: keep calling `recv(to_recv)` and concatenating
the partial reads until `to_recv` bytes have arrived; an empty recv (the
stream is exhausted) is an `EOFError`.  The stream model delivers one byte
per recv — `recv(n)` may return any non-empty prefix of the remaining
bytes, and the source loop accumulates until `to_recv` is satisfied, so the
accumulated result only depends on the stream contents. -/
def recvBody : Nat → List Nat → Except PyErr (List Nat × List Nat)
  | 0, s => .ok ([], s)
  | _ + 1, [] => .error .eofError
  | n + 1, c :: rest =>
    match recvBody n rest with
    | .ok (more, rest2) => .ok (c :: more, rest2)
    | .error e => .error e

/-- `Connection.__recv_null`: read single bytes until a NUL (silently
passing over everything else); an empty recv is an `EOFError`. -/
def recvNull (s : List Nat) : Except PyErr (List Nat) :=
  match s with
  | [] => .error .eofError
  | c :: rest => if c = 0 then .ok rest else recvNull rest

/-- `Connection.recv_msg`: length prefix, then the body, then one trailing
NUL.  Returns the body and the unread remainder of the stream. -/
def recvMsg (s : List Nat) : Except PyErr (List Nat × List Nat) := do
  let (length, s1) ← recvLength s []
  let (body, s2) ← recvBody length s1
  let s3 ← recvNull s2
  .ok (body, s3)

/-- `Connection.send_msg`: `self.sock.send(cmd + chr(0))` — the payload
followed by a single NUL byte, with no length in front. -/
def sendMsg (cmd : List Nat) : List Nat := cmd ++ [0]

/-- The wire-framing grammar of spec section 6 (modelled from the spec, for
comparison with `sendMsg`): `<decimal-length> NUL <payload> NUL`. -/
def frameWire (payload : List Nat) : List Nat :=
  natToDecimal payload.length ++ [0] ++ payload ++ [0]

/-! ## Python library models: base64 / binascii, UTF-8, strip, split

`Api.eval` uses `base64.encodebytes` (76-character lines, each followed by a
newline); `EvalResponse.get_code` and the property builder use
`base64.b64decode` / `base64.decodebytes`, both of which call
`binascii.a2b_base64` in its default lenient mode: bytes outside the base64
alphabet are skipped, a padding character closes the current quad once it
has at least two data characters (everything after it is ignored), padding
anywhere else is skipped, and leftover data characters at the end raise
`binascii.Error`. -/

/-- The base64 alphabet: the character for a 6-bit value. -/
def b64chr (v : Nat) : Nat :=
  if v < 26 then 65 + v
  else if v < 52 then 97 + (v - 26)
  else if v < 62 then 48 + (v - 52)
  else if v = 62 then 43
  else 47

/-- The 6-bit value of a base64 alphabet character, `none` off-alphabet. -/
def b64val (c : Nat) : Option Nat :=
  if 65 ≤ c ∧ c ≤ 90 then some (c - 65)
  else if 97 ≤ c ∧ c ≤ 122 then some (26 + (c - 97))
  else if 48 ≤ c ∧ c ≤ 57 then some (52 + (c - 48))
  else if c = 43 then some 62
  else if c = 47 then some 63
  else none

/-- Standard base64 encoding of a byte list, with `=` padding (61). -/
def b64encode : List Nat → List Nat
  | [] => []
  | [b1] => [b64chr (b1 / 4), b64chr (b1 % 4 * 16), 61, 61]
  | [b1, b2] => [b64chr (b1 / 4), b64chr (b1 % 4 * 16 + b2 / 16), b64chr (b2 % 16 * 4), 61]
  | b1 :: b2 :: b3 :: tl =>
    b64chr (b1 / 4) :: b64chr (b1 % 4 * 16 + b2 / 16) ::
      b64chr (b2 % 16 * 4 + b3 / 64) :: b64chr (b3 % 64) :: b64encode tl

/-- Errors raised by `binascii.a2b_base64` (both are `binascii.Error`). -/
inductive B64Err where
  | oneMore : B64Err
  | incorrectPadding : B64Err
  deriving DecidableEq

/-- `binascii.a2b_base64` in default (lenient) mode, as a quad-position
state machine: `qp` is the position inside the current quad, `left` the
leftover bits, `pads` the count of padding characters seen at the current
quad position.  A `=` at `qp ≥ 2` that completes the quad ends decoding and
ignores the rest of the input. -/
def a2bAux : List Nat → Nat → Nat → Nat → List Nat → Except B64Err (List Nat)
  | [], qp, _, _, acc =>
    if qp = 0 then .ok acc.reverse
    else if qp = 1 then .error .oneMore
    else .error .incorrectPadding
  | c :: rest, qp, left, pads, acc =>
    if c = 61 then
      if 2 ≤ qp then
        if 3 ≤ qp + pads then .ok acc.reverse
        else a2bAux rest qp left (pads + 1) acc
      else a2bAux rest qp left pads acc
    else
      match b64val c with
      | none => a2bAux rest qp left pads acc
      | some d =>
        if qp = 0 then a2bAux rest 1 d 0 acc
        else if qp = 1 then a2bAux rest 2 (d % 16) 0 ((left * 4 + d / 16) :: acc)
        else if qp = 2 then a2bAux rest 3 (d % 4) 0 ((left * 16 + d / 4) :: acc)
        else a2bAux rest 0 0 0 ((left * 64 + d) :: acc)

/-- `base64.b64decode` / `base64.decodebytes` (both are `a2b_base64`). -/
def a2bBase64 (s : List Nat) : Except B64Err (List Nat) := a2bAux s 0 0 0 []

/-- One pass of `base64.encodebytes`: split into 57-byte chunks.  `cur` is
the reversed current chunk, `k` its remaining capacity. -/
def chunks57Go : List Nat → List Nat → Nat → List (List Nat)
  | [], cur, _ => if cur = [] then [] else [cur.reverse]
  | b :: rest, cur, 0 => cur.reverse :: chunks57Go rest [b] 56
  | b :: rest, cur, k + 1 => chunks57Go rest (b :: cur) k

/-- Split a byte list into chunks of 57 bytes (the last may be shorter). -/
def chunks57 (bs : List Nat) : List (List Nat) := chunks57Go bs [] 57

/-- `base64.encodebytes`: each 57-byte chunk becomes one 76-character
base64 line followed by a newline. -/
def encodebytesPy (bs : List Nat) : List Nat :=
  ((chunks57 bs).map (fun ch => b64encode ch ++ [10])).flatten

/-- A Unicode scalar value: encodable by `str.encode("utf-8")` (everything
below 0x110000 except the surrogate range). -/
def isScalarCp (c : Nat) : Prop := c < 1114112 ∧ ¬ (55296 ≤ c ∧ c ≤ 57343)

instance (c : Nat) : Decidable (isScalarCp c) := by unfold isScalarCp; infer_instance

/-- UTF-8 encoding of one scalar value. -/
def utf8EncodeChar (c : Nat) : List Nat :=
  if c < 128 then [c]
  else if c < 2048 then [192 + c / 64, 128 + c % 64]
  else if c < 65536 then [224 + c / 4096, 128 + c / 64 % 64, 128 + c % 64]
  else [240 + c / 262144, 128 + c / 4096 % 64, 128 + c / 64 % 64, 128 + c % 64]

/-- `str.encode("utf-8")`: `none` models `UnicodeEncodeError` (a lone
surrogate in the string). -/
def utf8Encode? (s : List Nat) : Option (List Nat) :=
  if ∀ c ∈ s, isScalarCp c then some ((s.map utf8EncodeChar).flatten) else none

/-- Lower bound of the second byte of a three-byte sequence (rejects
overlong forms after 0xE0 and surrogates after 0xED). -/
def cont2Lo (b : Nat) : Nat := if b = 224 then 160 else 128

/-- Upper bound (exclusive) of the second byte of a three-byte sequence. -/
def cont2Hi (b : Nat) : Nat := if b = 237 then 160 else 192

/-- Lower bound of the second byte of a four-byte sequence (rejects
overlong forms after 0xF0). -/
def cont4Lo (b : Nat) : Nat := if b = 240 then 144 else 128

/-- Upper bound (exclusive) of the second byte of a four-byte sequence
(rejects values above 0x10FFFF after 0xF4). -/
def cont4Hi (b : Nat) : Nat := if b = 244 then 144 else 192

/-- `bytes.decode("utf-8")` (strict), as a byte-at-a-time state machine:
`need` is the number of continuation bytes still expected, `val` the bits
accumulated so far, `lo`/`hi` the admissible range of the next byte (the
range is narrowed after 0xE0/0xED/0xF0/0xF4 lead bytes, which rejects
overlong forms, surrogates and values above 0x10FFFF exactly as the strict
codec does). -/
def utf8DecAux : List Nat → Nat → Nat → Nat → Nat → List Nat → Option (List Nat)
  | [], 0, _, _, _, acc => some acc.reverse
  | [], _ + 1, _, _, _, _ => none
  | b :: rest, 0, _, _, _, acc =>
    if b < 128 then utf8DecAux rest 0 0 128 192 (b :: acc)
    else if b < 194 then none
    else if b < 224 then utf8DecAux rest 1 (b - 192) 128 192 acc
    else if b < 240 then utf8DecAux rest 2 (b - 224) (cont2Lo b) (cont2Hi b) acc
    else if b < 245 then utf8DecAux rest 3 (b - 240) (cont4Lo b) (cont4Hi b) acc
    else none
  | b :: rest, 1, val, lo, hi, acc =>
    if lo ≤ b ∧ b < hi then utf8DecAux rest 0 0 128 192 ((val * 64 + (b - 128)) :: acc)
    else none
  | b :: rest, need + 2, val, lo, hi, acc =>
    if lo ≤ b ∧ b < hi then utf8DecAux rest (need + 1) (val * 64 + (b - 128)) 128 192 acc
    else none

/-- `bytes.decode("utf-8")` (strict): `none` models `UnicodeDecodeError`. -/
def utf8Decode (l : List Nat) : Option (List Nat) := utf8DecAux l 0 0 128 192 []

/-- Whitespace for `str.strip` (the ASCII part, which is all that occurs). -/
def isPySpace (c : Nat) : Prop := c = 32 ∨ c = 9 ∨ c = 10 ∨ c = 13 ∨ c = 11 ∨ c = 12

instance (c : Nat) : Decidable (isPySpace c) := by unfold isPySpace; infer_instance

/-- `str.strip()`: drop whitespace from both ends. -/
def pyStrip (l : List Nat) : List Nat :=
  ((l.dropWhile fun c => decide (isPySpace c)).reverse.dropWhile
    fun c => decide (isPySpace c)).reverse

/-- `str.split('-- ')` (the separator used by `get_code`), specialised to
that constant separator: every occurrence of `-` `-` ` ` splits. -/
def splitDDAux (acc : List Nat) : List Nat → List (List Nat)
  | [] => [acc.reverse]
  | 45 :: 45 :: 32 :: rest => acc.reverse :: splitDDAux [] rest
  | c :: rest => splitDDAux (c :: acc) rest

/-- `cmd.split('-- ')`. -/
def splitDD (l : List Nat) : List (List Nat) := splitDDAux [] l

/-- `str.encode("utf-8")` with its exception. -/
def utf8EncodeE (s : List Nat) : Except PyErr (List Nat) :=
  match utf8Encode? s with
  | some b => .ok b
  | none => .error .unicodeEncodeError

/-- `bytes.decode("utf-8")` with its exception. -/
def utf8DecodeE (b : List Nat) : Except PyErr (List Nat) :=
  match utf8Decode b with
  | some s => .ok s
  | none => .error .unicodeDecodeError

/-- `base64.b64decode` / `decodebytes` with its `binascii.Error`. -/
def b64decodeE (bs : List Nat) : Except PyErr (List Nat) :=
  match a2bBase64 bs with
  | .ok d => .ok d
  | .error _ => .error .binasciiError

/-! ## `EvalResponse.get_code` and `Api.eval` (python3/vdebug/dbgp.py) -/

/-- `EvalResponse.get_code`: split the stored argument string on `'-- '`,
re-pad the token after the separator to a multiple of four characters with
trailing `=`, and base64-decode it.  `parts[1]` on a one-element list is an
`IndexError`. -/
def getCode (cmdArgs : List Nat) : Except PyErr (List Nat) :=
  match (splitDD cmdArgs).drop 1 with
  | [] => .error .indexError
  | t :: _ =>
    let t2 := if t.length % 4 ≠ 0 then t ++ List.replicate (4 - t.length % 4) 61 else t
    do
      let bs ← utf8EncodeE t2
      let dec ← b64decodeE bs
      utf8DecodeE dec

/-- The argument string stored on an eval response: `Api.eval` builds
`'-- ' + encodebytes(code.encode("utf-8")).decode("utf-8")` and
`Api.send_cmd` strips it before storing it as `cmd_args`. -/
def apiEvalStoredArgs (code : List Nat) : Except PyErr (List Nat) := do
  let bs ← utf8EncodeE code
  let encStr ← utf8DecodeE (encodebytesPy bs)
  .ok (pyStrip (pyStr "-- " ++ encStr))

/-! ### UTF-8 lemmas -/

/-- Join base64 lines with single newlines (the line structure produced by
`encodebytes` before the trailing newline). -/
def joinNl : List (List Nat) → List Nat
  | [] => []
  | [l] => l
  | l :: l2 :: ls => l ++ 10 :: joinNl (l2 :: ls)

inductive XElem where
  | mk (tag : List Nat) (attrs : List (List Nat × List Nat)) (text : Option (List Nat))
      (kids : List XElem)

def XElem.tag : XElem → List Nat
  | .mk t _ _ _ => t

def XElem.attrs : XElem → List (List Nat × List Nat)
  | .mk _ a _ _ => a

def XElem.text : XElem → Option (List Nat)
  | .mk _ _ t _ => t

def XElem.kids : XElem → List XElem
  | .mk _ _ _ k => k

/-- `Element.get(name)`. -/
def attrGet (e : XElem) (name : List Nat) : Option (List Nat) :=
  (e.attrs.find? (fun kv => kv.1 == name)).map (·.2)

/-- `Element.find(tag)`: the first direct child with that qualified tag. -/
def findChild (e : XElem) (tag : List Nat) : Option XElem :=
  e.kids.find? (fun k => k.tag == tag)

/-- `Response.__determine_ns`: the namespace is everything of the root tag
up to the first closing brace, plus the brace; a root tag that does not
start with an opening brace raises `DBGPError(..., 1)`. -/
def determineNs (xml : XElem) : Except PyErr (List Nat) :=
  match xml.tag with
  | [] => .error .indexError
  | c :: _ =>
    if c = 123 then .ok ((xml.tag.takeWhile fun d => !(d == 125)) ++ [125])
    else .error (.dbgpErrorInt (pyStr "Invalid or missing XML namespace"))

/-- The tail of `Response.__parse_error` once the code attribute has been
read: `int(code)`, the code-4 special case, then the message element. -/
def parseErrorCode (ns : List Nat) (errEl : XElem) (code : List Nat) : PyErr :=
  match pyInt? code with
  | none => .valueError
  | some c =>
    if c = 4 then .cmdNotImplemented
    else
      match findChild errEl (ns ++ pyStr "message") with
      | none => .responseError (pyStr "Missing error message in response")
      | some msgEl => .dbgpError msgEl.text code

/-- `Response.__parse_error` once the error element has been located. -/
def parseErrorWithEl (ns : List Nat) (errEl : XElem) : PyErr :=
  match attrGet errEl (pyStr "code") with
  | none => .responseError (pyStr "Missing error code in response")
  | some code => parseErrorCode ns errEl code

/-- `Response.__parse_error`: classify the error element of a response.
Every branch raises. -/
def parseError (ns : List Nat) (xml : XElem) : PyErr :=
  match findChild xml (ns ++ pyStr "error") with
  | none => .dbgpErrorInt (pyStr "Could not parse error from return XML")
  | some errEl => parseErrorWithEl ns errEl

/-- `Response.__init__` on an already-parsed payload: when the raw response
contains the substring `<error` (the flag `hasErrorSub`), `as_xml` binds the
namespace and `__parse_error` raises; otherwise construction succeeds. -/
def responseInit (hasErrorSub : Bool) (xml : XElem) : Except PyErr Unit :=
  if hasErrorSub then
    match determineNs xml with
    | .error e => .error e
    | .ok ns => .error (parseError ns xml)
  else .ok ()

/-- `EvalResponse.__init__`: run the base construction and re-raise a
`DBGPError` whose code parses to 206 as `EvalError`; every other exception
passes through unchanged (`CmdNotImplementedError` is not a `DBGPError`
and is not caught). -/
def evalResponseInit (hasErrorSub : Bool) (xml : XElem) : Except PyErr Unit :=
  match responseInit hasErrorSub xml with
  | .error (.dbgpError msg code) =>
    match pyInt? code with
    | none => .error .valueError
    | some c =>
      if c = 206 then .error .evalError else .error (.dbgpError msg code)
  | r => r

/-! ## The property tree builder — `ContextProperty` -/

/-- One built `ContextProperty` node.  `size` holds either the raw `size`
attribute string or the recomputed integer for `scalar` nodes; `numCrs` is
`none` for container nodes (the source never assigns `num_crs` on the
early-return path). -/
inductive PropTree where
  | node (type displayName : List Nat) (encoding : Option (List Nat)) (depth : Nat)
      (size : Option (List Nat ⊕ Int)) (value : List Nat) (numCrs : Option Nat)
      (numDeclaredChildren : Nat) (hasChildren : Bool) (isLastChild : Bool)
      (children : List PropTree)

def PropTree.type : PropTree → List Nat
  | .node t _ _ _ _ _ _ _ _ _ _ => t

def PropTree.displayName : PropTree → List Nat
  | .node _ d _ _ _ _ _ _ _ _ _ => d

def PropTree.value : PropTree → List Nat
  | .node _ _ _ _ _ v _ _ _ _ _ => v

def PropTree.isLastChild : PropTree → Bool
  | .node _ _ _ _ _ _ _ _ _ l _ => l

def PropTree.children : PropTree → List PropTree
  | .node _ _ _ _ _ _ _ _ _ _ c => c

def PropTree.size : PropTree → Option (List Nat ⊕ Int)
  | .node _ _ _ _ s _ _ _ _ _ _ => s

/-- `mark_as_last_child`. -/
def markLast : PropTree → PropTree
  | .node t d e dp s v n nd hc _ c => .node t d e dp s v n nd hc true c

/-- The class attribute `ContextProperty.ns` (a constant, never
re-derived). -/
def propNs : List Nat := pyStr "\x7burn:debugger_protocol_v1\x7d"

/-- ASCII `str.lower()` (the type strings compared here are ASCII). -/
def pyLower (s : List Nat) : List Nat :=
  s.map fun c => if 65 ≤ c ∧ c ≤ 90 then c + 32 else c

/-- `ContextProperty._get_enc_node_text`: the text of a nested element,
base64-decoded when the element carries `encoding="base64"`; only a
`UnicodeDecodeError` of the final UTF-8 decode falls back to the raw text —
a `binascii.Error` of the base64 decode itself propagates. -/
def reqBytes : Option (List Nat) → Except PyErr (List Nat)
  | none => .error .unicodeEncodeError
  | some bytes => .ok bytes

def reqDecoded : Except B64Err (List Nat) → Except PyErr (List Nat)
  | .error _ => .error .binasciiError
  | .ok dec => .ok dec

/-- `v.decode()` falling back to the raw text on `UnicodeDecodeError`. -/
def utf8OrRaw (txt dec : List Nat) : List Nat :=
  match utf8Decode dec with
  | none => txt
  | some v => v

/-- `base64.b64decode(v)` of a text node followed by `.decode()`, with the
`UnicodeDecodeError` fallback to the raw text; `binascii.Error` and
`UnicodeEncodeError` propagate. -/
def b64TextDecode (txt : List Nat) : Except PyErr (List Nat) :=
  (reqBytes (utf8Encode? txt)).bind fun bytes =>
  (reqDecoded (a2bBase64 bytes)).bind fun dec =>
  .ok (utf8OrRaw txt dec)

def getEncNodeText (node : XElem) (name : List Nat) (dflt : Option (List Nat)) :
    Except PyErr (Option (List Nat)) :=
  match findChild node (propNs ++ name) with
  | some n =>
    match n.text with
    | some txt =>
      if attrGet n (pyStr "encoding") == some (pyStr "base64") then
        (b64TextDecode txt).map some
      else .ok (some txt)
    | none => .ok dflt
  | none => .ok dflt

/-- `ContextProperty.__determine_type`: `classname`, else `type`, else
`unknown`. -/
def determineType (node : XElem) : List Nat :=
  match attrGet node (pyStr "classname") with
  | some t => t
  | none =>
    match attrGet node (pyStr "type") with
    | some t => t
    | none => pyStr "unknown"

/-- `ContextProperty._determine_displayname`: the `fullname` attribute,
else the (possibly base64) nested `fullname` element with default `""`; a
result equal to `::` is replaced by the type. -/
def determineDisplayName (node : XElem) (type : List Nat) : Except PyErr (List Nat) :=
  (match attrGet node (pyStr "fullname") with
   | some d => Except.ok (some d)
   | none => getEncNodeText node (pyStr "fullname") (some [])).bind fun dn =>
  .ok (if dn.getD [] == pyStr "::" then type else dn.getD [])

/-- `ContextProperty._determine_children`: the declared child count from
`numchildren`, else `children`, else 0; `int(...)` of a non-numeric
attribute raises. -/
def determineChildren (node : XElem) : Except PyErr Nat :=
  match attrGet node (pyStr "numchildren") with
  | some c =>
    match pyInt? c with
    | some n => .ok n
    | none => .error .valueError
  | none =>
    match attrGet node (pyStr "children") with
    | some c =>
      match pyInt? c with
      | some n => .ok n
      | none => .error .valueError
    | none => .ok 0

/-- `is_uninitialized`. -/
def isUninitialized (type : List Nat) : Bool := type == pyStr "uninitialized"

/-- The value of `__determine_value` before the back-tick wrapping, for a
node without children: the nested `value` element, else the node's own
(possibly base64) text, else the node's own text unless uninitialized,
else the empty string. -/
def resolveRawValue (node : XElem) (type : List Nat) (encoding : Option (List Nat))
    (hasC : Bool) : Except PyErr (List Nat) :=
  (getEncNodeText node (pyStr "value") none).bind fun v0 =>
  (match v0 with
   | some v => Except.ok (some v)
   | none =>
     if encoding == some (pyStr "base64") then
       match node.text with
       | none => Except.ok (some [])
       | some txt => (b64TextDecode txt).map some
     else if !(isUninitialized type) && !hasC then Except.ok node.text
     else Except.ok none).bind fun v1 =>
  .ok (v1.getD [])

/-- `self.value.replace('`', '\\`')`. -/
def escapeBackticks (v : List Nat) : List Nat :=
  (v.map fun c => if c = 96 then [92, 96] else [c]).flatten

/-- `ContextProperty.__determine_value`: a container node gets the empty
value (and no `num_crs`); otherwise resolve the raw value, count newlines,
and wrap string-like types in back-ticks with embedded back-ticks
escaped. -/
def determineValue (node : XElem) (type : List Nat) (encoding : Option (List Nat))
    (hasC : Bool) : Except PyErr (List Nat × Option Nat) :=
  if hasC then .ok ([], none)
  else
    (resolveRawValue node type encoding hasC).bind fun raw =>
    .ok (if pyLower type == pyStr "string" || pyLower type == pyStr "str" ||
          pyLower type == pyStr "scalar" then
        96 :: (escapeBackticks raw ++ [96])
      else raw, some (raw.count 10))

/-- The qualified tag of variable nodes. -/
def tagProperty : List Nat := propNs ++ pyStr "property"

mutual

/-- `ContextProperty.__init__`: build one property node (the steps in
source order: type, display name, encoding, size attribute, declared
children, value, children, scalar size fixup). -/
def buildProp : XElem → Nat → Except PyErr PropTree
  | node@(.mk _ _ _ elKids), depth =>
    (determineDisplayName node (determineType node)).bind fun dn =>
    (determineChildren node).bind fun declared =>
    (determineValue node (determineType node) (attrGet node (pyStr "encoding"))
      (decide (0 < declared))).bind fun vp =>
    (if decide (0 < declared) then buildKids elKids 0 declared depth
     else pure []).bind fun kids =>
    pure (.node (determineType node) dn (attrGet node (pyStr "encoding")) depth
      (if determineType node == pyStr "scalar" then
        some (Sum.inr ((vp.1.length : Int) - 2))
       else (attrGet node (pyStr "size")).map Sum.inl)
      vp.1 vp.2 declared (decide (0 < declared)) false kids)

/-- `ContextProperty.__init_children`: iterate the child elements in
document order, build each element whose tag is the property tag at
`depth + 1`, and mark the child whose running index equals the declared
count as the last child. -/
def buildKids (els : List XElem) (idx declared depth : Nat) :
    Except PyErr (List PropTree) :=
  match els with
  | [] => pure []
  | c :: rest =>
    if c.tag == tagProperty then do
      let p ← buildProp c (depth + 1)
      let p := if idx + 1 = declared then markLast p else p
      let ps ← buildKids rest (idx + 1) declared depth
      pure (p :: ps)
    else buildKids rest idx declared depth

end

/-- The protocol namespace, as used by the concrete witness payloads. -/
def dbgpNs : List Nat := pyStr "\x7burn:debugger_protocol_v1\x7d"

/-- A nested message element carrying text `m`. -/
def msgElX (m : List Nat) : XElem := .mk (dbgpNs ++ pyStr "message") [] (some m) []

/-- An error element with a `code` attribute and an optional nested message
element. -/
def errElX (code : List Nat) (msg : Option (List Nat)) : XElem :=
  .mk (dbgpNs ++ pyStr "error") [(pyStr "code", code)] none
    (match msg with
     | some m => [msgElX m]
     | none => [])

/-- A response payload carrying an error element. -/
def errPayload (code : List Nat) (msg : Option (List Nat)) : XElem :=
  .mk (dbgpNs ++ pyStr "response") [] none [errElX code msg]

/-- A simple scalar variable node, as sent inside a context response. -/
def leafElDefault : XElem :=
  .mk tagProperty [(pyStr "type", pyStr "int")] (some (pyStr "1")) []

/-- The property built from `leafElDefault` at a given depth. -/
def leafTree (dp : Nat) : PropTree :=
  .node (pyStr "int") [] none dp none (pyStr "1") (some 0) 0 false false []

/-- A container variable node declaring `d` children and actually carrying
`m` child property elements. -/
def containerEl (d m : Nat) : XElem :=
  .mk tagProperty [(pyStr "type", pyStr "array"), (pyStr "numchildren", natToDecimal d)]
    none (List.replicate m leafElDefault)

/-- A container node declaring two children but carrying three (the C5
counterexample input). -/
def c5cxNode : XElem :=
  .mk tagProperty [(pyStr "type", pyStr "array"), (pyStr "numchildren", pyStr "2")]
    none [leafElDefault, leafElDefault, leafElDefault]

/-- A leaf variable node whose own `encoding` attribute is `base64`. -/
def b64LeafEl (txt : Option (List Nat)) : XElem :=
  .mk tagProperty [(pyStr "encoding", pyStr "base64")] txt []

/-- A variable node with a base64-encoded nested element of the given name
(`value`, `fullname` or `name` in the source's `_get_enc_node_text` calls). -/
def b64ChildEl (name txt : List Nat) : XElem :=
  .mk tagProperty [] none
    [.mk (propNs ++ name) [(pyStr "encoding", pyStr "base64")] (some txt) []]

/-! ### Decimal-representation lemmas -/

/-- The concrete node for the C7 witness: `type="string"` with a value
containing a back-tick. -/
def c7WitnessEl : XElem :=
  .mk tagProperty [(pyStr "type", pyStr "string")] (some (pyStr "a`b")) []

theorem utf8_char_step (c : Nat) (hc : isScalarCp c) (rest acc : List Nat) :
    utf8DecAux (utf8EncodeChar c ++ rest) 0 0 128 192 acc =
      utf8DecAux rest 0 0 128 192 (c :: acc) := by
  unfold isScalarCp at hc
  unfold utf8EncodeChar
  by_cases h1 : c < 128
  · rw [if_pos h1, List.cons_append, List.nil_append, utf8DecAux.eq_3, if_pos h1]
  · rw [if_neg h1]
    by_cases h2 : c < 2048
    · rw [if_pos h2]
      rw [List.cons_append, List.cons_append, List.nil_append]
      rw [utf8DecAux.eq_3, if_neg (by omega), if_neg (by omega), if_pos (by omega)]
      rw [utf8DecAux.eq_4, if_pos (by omega)]
      have hv : (192 + c / 64 - 192) * 64 + (128 + c % 64 - 128) = c := by omega
      rw [hv]
    · rw [if_neg h2]
      by_cases h3 : c < 65536
      · rw [if_pos h3]
        rw [List.cons_append, List.cons_append, List.cons_append, List.nil_append]
        rw [utf8DecAux.eq_3, if_neg (by omega), if_neg (by omega), if_neg (by omega),
          if_pos (by omega)]
        rw [utf8DecAux.eq_5,
          if_pos (by simp only [cont2Lo, cont2Hi]; split_ifs <;> omega)]
        rw [utf8DecAux.eq_4, if_pos (by omega)]
        have h64 : c / 64 / 64 = c / 4096 := by
          rw [Nat.div_div_eq_div_mul]
        rw [show ((224 + c / 4096 - 224) * 64 + (128 + c / 64 % 64 - 128)) * 64 +
            (128 + c % 64 - 128) = c by omega]
      · rw [if_neg h3]
        rw [List.cons_append, List.cons_append, List.cons_append, List.cons_append,
          List.nil_append]
        rw [utf8DecAux.eq_3, if_neg (by omega), if_neg (by omega), if_neg (by omega),
          if_neg (by omega), if_pos (by omega)]
        rw [utf8DecAux.eq_5,
          if_pos (by simp only [cont4Lo, cont4Hi]; split_ifs <;> omega)]
        rw [utf8DecAux.eq_5, if_pos (by omega)]
        rw [utf8DecAux.eq_4, if_pos (by omega)]
        have h64 : c / 64 / 64 = c / 4096 := by
          rw [Nat.div_div_eq_div_mul]
        have h4096 : c / 4096 / 64 = c / 262144 := by
          rw [Nat.div_div_eq_div_mul]
        rw [show (((240 + c / 262144 - 240) * 64 + (128 + c / 4096 % 64 - 128)) * 64 +
            (128 + c / 64 % 64 - 128)) * 64 + (128 + c % 64 - 128) = c by omega]

theorem utf8DecAux_encode (s : List Nat) (h : ∀ c ∈ s, isScalarCp c) :
    ∀ acc : List Nat,
      utf8DecAux ((s.map utf8EncodeChar).flatten) 0 0 128 192 acc =
        some (acc.reverse ++ s) := by
  induction s with
  | nil => intro acc; simp [utf8DecAux]
  | cons c s ih =>
    intro acc
    simp only [List.map_cons, List.flatten_cons, List.append_assoc]
    rw [utf8_char_step c (h c (by simp)), ih (fun d hd => h d (by simp [hd]))]
    simp

theorem utf8_roundtrip (s : List Nat) (h : ∀ c ∈ s, isScalarCp c) :
    utf8Decode ((s.map utf8EncodeChar).flatten) = some s := by
  unfold utf8Decode
  rw [utf8DecAux_encode s h []]
  rfl

theorem utf8Encode?_eq_some {s bs : List Nat} (h : utf8Encode? s = some bs) :
    (∀ c ∈ s, isScalarCp c) ∧ bs = (s.map utf8EncodeChar).flatten := by
  unfold utf8Encode? at h
  split at h
  · refine ⟨by assumption, ?_⟩
    injection h with h2
    exact h2.symm
  · exact absurd h (by simp)

theorem utf8Encode_ascii (l : List Nat) (h : ∀ c ∈ l, c < 128) :
    utf8Encode? l = some l := by
  unfold utf8Encode?
  rw [if_pos (fun c hc => ⟨by have := h c hc; omega, by have := h c hc; omega⟩)]
  congr 1
  induction l with
  | nil => rfl
  | cons c l ih =>
    simp only [List.map_cons, List.flatten_cons]
    rw [show utf8EncodeChar c = [c] by unfold utf8EncodeChar; rw [if_pos (h c (by simp))]]
    rw [ih (fun d hd => h d (by simp [hd]))]
    rfl

theorem utf8DecAux_ascii (l : List Nat) (h : ∀ c ∈ l, c < 128) :
    ∀ acc : List Nat, utf8DecAux l 0 0 128 192 acc = some (acc.reverse ++ l) := by
  induction l with
  | nil => intro acc; simp [utf8DecAux]
  | cons c l ih =>
    intro acc
    rw [utf8DecAux.eq_3, if_pos (h c (by simp)), ih (fun d hd => h d (by simp [hd]))]
    simp

theorem utf8Decode_ascii (l : List Nat) (h : ∀ c ∈ l, c < 128) :
    utf8Decode l = some l := by
  unfold utf8Decode
  rw [utf8DecAux_ascii l h []]
  rfl

theorem utf8EncodeChar_lt256 (c : Nat) (hc : isScalarCp c) :
    ∀ b ∈ utf8EncodeChar c, b < 256 := by
  unfold isScalarCp at hc
  unfold utf8EncodeChar
  split_ifs <;> intro b hb <;> simp at hb <;> omega

theorem utf8EncodeChar_ne_nil (c : Nat) : utf8EncodeChar c ≠ [] := by
  unfold utf8EncodeChar
  split_ifs <;> simp

/-! ### base64 lemmas -/

theorem b64chr_facts : ∀ v < 64,
    b64chr v ≠ 61 ∧ b64chr v ≠ 45 ∧ b64chr v < 128 ∧ ¬ isPySpace (b64chr v) := by decide

theorem b64val_b64chr : ∀ v < 64, b64val (b64chr v) = some v := by decide

theorem a2b_skip (c : Nat) (h61 : c ≠ 61) (hval : b64val c = none) (rest : List Nat)
    (qp left pads : Nat) (acc : List Nat) :
    a2bAux (c :: rest) qp left pads acc = a2bAux rest qp left pads acc := by
  rw [a2bAux.eq_2, if_neg h61, hval]

theorem a2b_data0 (v : Nat) (hv : v < 64) (rest : List Nat) (left pads : Nat)
    (acc : List Nat) :
    a2bAux (b64chr v :: rest) 0 left pads acc = a2bAux rest 1 v 0 acc := by
  rw [a2bAux.eq_2, if_neg (b64chr_facts v hv).1, b64val_b64chr v hv]
  rfl

theorem a2b_data1 (v : Nat) (hv : v < 64) (rest : List Nat) (left pads : Nat)
    (acc : List Nat) :
    a2bAux (b64chr v :: rest) 1 left pads acc =
      a2bAux rest 2 (v % 16) 0 ((left * 4 + v / 16) :: acc) := by
  rw [a2bAux.eq_2, if_neg (b64chr_facts v hv).1, b64val_b64chr v hv]
  rfl

theorem a2b_data2 (v : Nat) (hv : v < 64) (rest : List Nat) (left pads : Nat)
    (acc : List Nat) :
    a2bAux (b64chr v :: rest) 2 left pads acc =
      a2bAux rest 3 (v % 4) 0 ((left * 16 + v / 4) :: acc) := by
  rw [a2bAux.eq_2, if_neg (b64chr_facts v hv).1, b64val_b64chr v hv]
  rfl

theorem a2b_data3 (v : Nat) (hv : v < 64) (rest : List Nat) (left pads : Nat)
    (acc : List Nat) :
    a2bAux (b64chr v :: rest) 3 left pads acc =
      a2bAux rest 0 0 0 ((left * 64 + v) :: acc) := by
  rw [a2bAux.eq_2, if_neg (b64chr_facts v hv).1, b64val_b64chr v hv]
  rfl

theorem a2b_pad0 (rest : List Nat) (left pads : Nat) (acc : List Nat) :
    a2bAux (61 :: rest) 0 left pads acc = a2bAux rest 0 left pads acc := by
  rw [a2bAux.eq_2]
  rfl

theorem a2b_pad2a (rest : List Nat) (left : Nat) (acc : List Nat) :
    a2bAux (61 :: rest) 2 left 0 acc = a2bAux rest 2 left 1 acc := by
  rw [a2bAux.eq_2]
  rfl

theorem a2b_pad2b (rest : List Nat) (left : Nat) (acc : List Nat) :
    a2bAux (61 :: rest) 2 left 1 acc = .ok acc.reverse := by
  rw [a2bAux.eq_2]
  rfl

theorem a2b_pad3 (rest : List Nat) (left : Nat) (acc : List Nat) :
    a2bAux (61 :: rest) 3 left 0 acc = .ok acc.reverse := by
  rw [a2bAux.eq_2]
  rfl

theorem a2b_quad (b1 b2 b3 : Nat) (h1 : b1 < 256) (h2 : b2 < 256) (h3 : b3 < 256)
    (rest : List Nat) (left pads : Nat) (acc : List Nat) :
    a2bAux (b64chr (b1 / 4) :: b64chr (b1 % 4 * 16 + b2 / 16) ::
        b64chr (b2 % 16 * 4 + b3 / 64) :: b64chr (b3 % 64) :: rest) 0 left pads acc =
      a2bAux rest 0 0 0 (b3 :: b2 :: b1 :: acc) := by
  rw [a2b_data0 _ (by omega), a2b_data1 _ (by omega), a2b_data2 _ (by omega),
    a2b_data3 _ (by omega)]
  rw [show b1 / 4 * 4 + (b1 % 4 * 16 + b2 / 16) / 16 = b1 from by omega]
  rw [show (b1 % 4 * 16 + b2 / 16) % 16 * 16 + (b2 % 16 * 4 + b3 / 64) / 4 = b2 from by
    omega]
  rw [show (b2 % 16 * 4 + b3 / 64) % 4 * 64 + b3 % 64 = b3 from by omega]

theorem a2b_tail1 (b1 : Nat) (h1 : b1 < 256) (rest : List Nat) (left pads : Nat)
    (acc : List Nat) :
    a2bAux (b64encode [b1] ++ rest) 0 left pads acc = .ok (acc.reverse ++ [b1]) := by
  show a2bAux (b64chr (b1 / 4) :: b64chr (b1 % 4 * 16) :: 61 :: 61 :: rest)
      0 left pads acc = _
  rw [a2b_data0 _ (by omega), a2b_data1 _ (by omega), a2b_pad2a, a2b_pad2b]
  rw [show b1 / 4 * 4 + b1 % 4 * 16 / 16 = b1 from by omega]
  simp

theorem a2b_tail2 (b1 b2 : Nat) (h1 : b1 < 256) (h2 : b2 < 256) (rest : List Nat)
    (left pads : Nat) (acc : List Nat) :
    a2bAux (b64encode [b1, b2] ++ rest) 0 left pads acc =
      .ok (acc.reverse ++ [b1, b2]) := by
  show a2bAux (b64chr (b1 / 4) :: b64chr (b1 % 4 * 16 + b2 / 16) ::
      b64chr (b2 % 16 * 4) :: 61 :: rest) 0 left pads acc = _
  rw [a2b_data0 _ (by omega), a2b_data1 _ (by omega), a2b_data2 _ (by omega), a2b_pad3]
  rw [show b1 / 4 * 4 + (b1 % 4 * 16 + b2 / 16) / 16 = b1 from by omega]
  rw [show (b1 % 4 * 16 + b2 / 16) % 16 * 16 + b2 % 16 * 4 / 4 = b2 from by omega]
  simp

theorem a2b_state0_irrel (s : List Nat) :
    ∀ (acc : List Nat) (left pads left2 pads2 : Nat),
      a2bAux s 0 left pads acc = a2bAux s 0 left2 pads2 acc := by
  induction s with
  | nil => intros; rfl
  | cons c rest ih =>
    intro acc left pads left2 pads2
    by_cases h61 : c = 61
    · subst h61
      rw [a2b_pad0, a2b_pad0]
      exact ih acc left pads left2 pads2
    · rcases hval : b64val c with _ | d
      · rw [a2b_skip c h61 hval, a2b_skip c h61 hval]
        exact ih acc left pads left2 pads2
      · rw [a2bAux.eq_2, if_neg h61, hval, a2bAux.eq_2, if_neg h61, hval]
        rfl

theorem a2b_pure : ∀ (bs : List Nat), bs.length % 3 = 0 → (∀ b ∈ bs, b < 256) →
    ∀ (rest : List Nat) (left pads : Nat) (acc : List Nat),
      a2bAux (b64encode bs ++ rest) 0 left pads acc =
        a2bAux rest 0 0 0 (bs.reverse ++ acc)
  | [], _, _ => by
    intro rest left pads acc
    simpa using a2b_state0_irrel rest acc left pads 0 0
  | [b1], hlen, _ => by simp at hlen
  | [b1, b2], hlen, _ => by simp at hlen
  | b1 :: b2 :: b3 :: tl, hlen, hb => by
    intro rest left pads acc
    show a2bAux ((b64chr (b1 / 4) :: b64chr (b1 % 4 * 16 + b2 / 16) ::
        b64chr (b2 % 16 * 4 + b3 / 64) :: b64chr (b3 % 64) :: b64encode tl) ++ rest)
        0 left pads acc = _
    simp only [List.cons_append]
    rw [a2b_quad b1 b2 b3 (hb b1 (by simp)) (hb b2 (by simp)) (hb b3 (by simp))]
    rw [a2b_pure tl (by simp at hlen ⊢; omega) (fun b hbm => hb b (by simp [hbm]))
      rest 0 0 (b3 :: b2 :: b1 :: acc)]
    simp

theorem a2b_rem : ∀ (bs : List Nat), bs.length % 3 ≠ 0 → (∀ b ∈ bs, b < 256) →
    ∀ (rest : List Nat) (left pads : Nat) (acc : List Nat),
      a2bAux (b64encode bs ++ rest) 0 left pads acc = .ok (acc.reverse ++ bs)
  | [], hlen, _ => by simp at hlen
  | [b1], _, hb => fun rest left pads acc => a2b_tail1 b1 (hb b1 (by simp)) rest left pads acc
  | [b1, b2], _, hb => fun rest left pads acc =>
      a2b_tail2 b1 b2 (hb b1 (by simp)) (hb b2 (by simp)) rest left pads acc
  | b1 :: b2 :: b3 :: tl, hlen, hb => by
    intro rest left pads acc
    show a2bAux ((b64chr (b1 / 4) :: b64chr (b1 % 4 * 16 + b2 / 16) ::
        b64chr (b2 % 16 * 4 + b3 / 64) :: b64chr (b3 % 64) :: b64encode tl) ++ rest)
        0 left pads acc = _
    simp only [List.cons_append]
    rw [a2b_quad b1 b2 b3 (hb b1 (by simp)) (hb b2 (by simp)) (hb b3 (by simp))]
    rw [a2b_rem tl (by simp at hlen ⊢; omega) (fun b hbm => hb b (by simp [hbm]))
      rest 0 0 (b3 :: b2 :: b1 :: acc)]
    simp

theorem a2b_padTail : ∀ (k left pads : Nat) (acc : List Nat),
    a2bAux (List.replicate k 61) 0 left pads acc = .ok acc.reverse := by
  intro k
  induction k with
  | zero => intros; rfl
  | succ k ih =>
    intro left pads acc
    rw [List.replicate_succ, a2b_pad0]
    exact ih left pads acc

theorem b64val_nl : b64val 10 = none := rfl

theorem a2b_chunkList : ∀ (C : List (List Nat)), C ≠ [] →
    (∀ ch ∈ C.dropLast, ch.length % 3 = 0) →
    (∀ ch ∈ C, ∀ b ∈ ch, b < 256) →
    ∀ (k left pads : Nat) (acc : List Nat),
      a2bAux (joinNl (C.map b64encode) ++ List.replicate k 61) 0 left pads acc =
        .ok (acc.reverse ++ C.flatten)
  | [], h, _, _ => absurd rfl h
  | [ch], _, _, hb => by
    intro k left pads acc
    show a2bAux (b64encode ch ++ List.replicate k 61) 0 left pads acc = _
    by_cases hlen : ch.length % 3 = 0
    · rw [a2b_pure ch hlen (hb ch (by simp)) _ left pads acc, a2b_padTail]
      simp
    · rw [a2b_rem ch hlen (hb ch (by simp))]
      simp
  | ch :: ch2 :: C, _, hfull, hb => by
    intro k left pads acc
    show a2bAux ((b64encode ch ++ 10 :: joinNl ((ch2 :: C).map b64encode)) ++
        List.replicate k 61) 0 left pads acc = _
    rw [List.append_assoc]
    rw [a2b_pure ch (hfull ch (by simp)) (hb ch (by simp))]
    rw [show (10 :: joinNl ((ch2 :: C).map b64encode)) ++ List.replicate k 61 =
        10 :: (joinNl ((ch2 :: C).map b64encode) ++ List.replicate k 61) from rfl]
    rw [a2b_skip 10 (by omega) b64val_nl]
    rw [a2b_chunkList (ch2 :: C) (by simp)
      (fun c hc => hfull c (by simp at hc ⊢; tauto))
      (fun c hc => hb c (by simp at hc ⊢; tauto)) k 0 0 (ch.reverse ++ acc)]
    simp

/-! ### Chunking, line joining, strip and split lemmas -/

theorem chunks57Go_spec : ∀ (bs cur : List Nat) (k : Nat),
    chunks57Go bs cur k =
      if bs.length ≤ k then (if cur = [] ∧ bs = [] then [] else [cur.reverse ++ bs])
      else (cur.reverse ++ bs.take k) :: chunks57Go (bs.drop k) [] 57 := by
  intro bs
  induction bs with
  | nil =>
    intro cur k
    by_cases hcur : cur = [] <;> simp [chunks57Go, hcur]
  | cons b rest ih =>
    intro cur k
    match k with
    | 0 =>
      show cur.reverse :: chunks57Go rest [b] 56 = _
      rw [if_neg (by simp)]
      simp only [List.take_zero, List.append_nil, List.drop_zero]
      rfl
    | k + 1 =>
      show chunks57Go rest (b :: cur) k = _
      rw [ih (b :: cur) k]
      by_cases hlen : rest.length ≤ k
      · rw [if_pos hlen,
          if_pos (show (b :: rest).length ≤ k + 1 by simp only [List.length_cons]; omega),
          if_neg (show ¬(b :: cur = [] ∧ rest = []) by simp),
          if_neg (show ¬(cur = [] ∧ b :: rest = []) by simp)]
        simp
      · rw [if_neg hlen,
          if_neg (show ¬(b :: rest).length ≤ k + 1 by simp only [List.length_cons]; omega)]
        simp only [List.take_succ_cons, List.drop_succ_cons, List.reverse_cons,
          List.append_assoc, List.cons_append, List.nil_append]

theorem chunks57_small (bs : List Nat) (h1 : bs ≠ []) (h2 : bs.length ≤ 57) :
    chunks57 bs = [bs] := by
  unfold chunks57
  rw [chunks57Go_spec, if_pos h2, if_neg (by simp [h1])]
  simp

theorem chunks57_big (bs : List Nat) (h : 57 < bs.length) :
    chunks57 bs = bs.take 57 :: chunks57 (bs.drop 57) := by
  unfold chunks57
  rw [chunks57Go_spec, if_neg (by omega)]
  simp

theorem chunks57_flatten (bs : List Nat) : (chunks57 bs).flatten = bs := by
  by_cases h0 : bs = []
  · subst h0; rfl
  by_cases h57 : bs.length ≤ 57
  · rw [chunks57_small bs h0 h57]; simp
  · rw [chunks57_big bs (by omega)]
    simp only [List.flatten_cons]
    rw [chunks57_flatten (bs.drop 57)]
    exact List.take_append_drop 57 bs
termination_by bs.length
decreasing_by simp only [List.length_drop]; omega

theorem chunks57_ne_nil (bs : List Nat) (h : bs ≠ []) : chunks57 bs ≠ [] := by
  by_cases h57 : bs.length ≤ 57
  · rw [chunks57_small bs h h57]; simp
  · rw [chunks57_big bs (by omega)]; simp

theorem chunks57_mem_ne_nil (bs : List Nat) : ∀ ch ∈ chunks57 bs, ch ≠ [] := by
  by_cases h0 : bs = []
  · subst h0; intro ch hch; simp [chunks57, chunks57Go] at hch
  by_cases h57 : bs.length ≤ 57
  · rw [chunks57_small bs h0 h57]
    intro ch hch
    simp at hch
    subst hch; exact h0
  · rw [chunks57_big bs (by omega)]
    intro ch hch
    rcases List.mem_cons.mp hch with h | h
    · subst h
      have : (bs.take 57).length = 57 := by
        rw [List.length_take]; omega
      intro hnil
      rw [hnil] at this
      simp at this
    · exact chunks57_mem_ne_nil (bs.drop 57) ch h
termination_by bs.length
decreasing_by simp only [List.length_drop]; omega

theorem chunks57_dropLast_full (bs : List Nat) :
    ∀ ch ∈ (chunks57 bs).dropLast, ch.length = 57 := by
  by_cases h0 : bs = []
  · subst h0; intro ch hch; simp [chunks57, chunks57Go] at hch
  by_cases h57 : bs.length ≤ 57
  · rw [chunks57_small bs h0 h57]
    intro ch hch
    simp at hch
  · rw [chunks57_big bs (by omega)]
    intro ch hch
    have hne : chunks57 (bs.drop 57) ≠ [] :=
      chunks57_ne_nil _ (by
        intro hd
        have := congrArg List.length hd
        simp only [List.length_drop, List.length_nil] at this
        omega)
    rw [List.dropLast_cons_of_ne_nil hne] at hch
    rcases List.mem_cons.mp hch with h | h
    · subst h
      rw [List.length_take]; omega
    · exact chunks57_dropLast_full (bs.drop 57) ch h
termination_by bs.length
decreasing_by simp only [List.length_drop]; omega

theorem flatten_nl : ∀ (L : List (List Nat)), L ≠ [] →
    (L.map (· ++ [10])).flatten = joinNl L ++ [10]
  | [], h => absurd rfl h
  | [l], _ => by simp [joinNl]
  | l :: l2 :: ls, _ => by
    show (l ++ [10]) ++ (((l2 :: ls).map (· ++ [10])).flatten) = _
    rw [flatten_nl (l2 :: ls) (by simp)]
    show _ = (l ++ 10 :: joinNl (l2 :: ls)) ++ [10]
    simp

theorem joinNl_mem : ∀ (L : List (List Nat)) (c : Nat), c ∈ joinNl L →
    c = 10 ∨ ∃ l ∈ L, c ∈ l
  | [], c, h => by simp [joinNl] at h
  | [l], c, h => by
    right
    exact ⟨l, by simp, h⟩
  | l :: l2 :: ls, c, h => by
    rcases List.mem_append.mp h with h1 | h1
    · right; exact ⟨l, by simp, h1⟩
    · rcases List.mem_cons.mp h1 with h2 | h2
      · left; exact h2
      · rcases joinNl_mem (l2 :: ls) c h2 with h3 | ⟨l3, hl3, hc3⟩
        · left; exact h3
        · right; exact ⟨l3, by simp [List.mem_cons] at hl3 ⊢; tauto, hc3⟩

theorem joinNl_getLast? : ∀ (L : List (List Nat)) (l : List Nat), l ≠ [] →
    L.getLast? = some l → (joinNl L).getLast? = l.getLast?
  | [], l, _, h => by simp at h
  | [x], l, _, h => by
    simp at h
    subst h
    rfl
  | x :: y :: L, l, hne, h => by
    rw [List.getLast?_cons_cons] at h
    show ((x ++ 10 :: joinNl (y :: L))).getLast? = _
    rw [List.getLast?_append]
    have hrec := joinNl_getLast? (y :: L) l hne h
    have hjoin_ne : joinNl (y :: L) ≠ [] := by
      intro hnil
      rw [hnil] at hrec
      have : l.getLast? = none := hrec.symm
      rw [List.getLast?_eq_none_iff] at this
      exact hne this
    match hj : joinNl (y :: L) with
    | [] => exact absurd hj hjoin_ne
    | a :: as =>
      rw [hj] at hrec
      rw [show (10 :: a :: as).getLast? = (a :: as).getLast? from List.getLast?_cons_cons]
      rw [hrec]
      have : (a :: as).getLast?.isSome := by
        rw [hrec, ← hrec]
        cases h2 : (a :: as).getLast? with
        | none => rw [List.getLast?_eq_none_iff] at h2; exact absurd h2 (by simp)
        | some _ => rfl
      cases h2 : l.getLast? with
      | none => rw [List.getLast?_eq_none_iff] at h2; exact absurd h2 hne
      | some c => simp

theorem b64encode_mem : ∀ (ch : List Nat), (∀ b ∈ ch, b < 256) → ∀ (c : Nat),
    c ∈ b64encode ch → c = 61 ∨ ∃ v, v < 64 ∧ c = b64chr v
  | [], _, c, h => by simp [b64encode] at h
  | [b1], hby, c, h => by
    have h1 : b1 < 256 := hby b1 (by simp)
    simp only [b64encode, List.mem_cons, List.not_mem_nil, or_false] at h
    rcases h with h | h | h | h
    · right; exact ⟨b1 / 4, by omega, h⟩
    · right; exact ⟨b1 % 4 * 16, by omega, h⟩
    · left; exact h
    · left; exact h
  | [b1, b2], hby, c, h => by
    have h1 : b1 < 256 := hby b1 (by simp)
    have h2 : b2 < 256 := hby b2 (by simp)
    simp only [b64encode, List.mem_cons, List.not_mem_nil, or_false] at h
    rcases h with h | h | h | h
    · right; exact ⟨b1 / 4, by omega, h⟩
    · right; exact ⟨b1 % 4 * 16 + b2 / 16, by omega, h⟩
    · right; exact ⟨b2 % 16 * 4, by omega, h⟩
    · left; exact h
  | b1 :: b2 :: b3 :: tl, hby, c, h => by
    have h1 : b1 < 256 := hby b1 (by simp)
    have h2 : b2 < 256 := hby b2 (by simp)
    have h3 : b3 < 256 := hby b3 (by simp)
    simp only [b64encode, List.mem_cons] at h
    rcases h with h | h | h | h | h
    · right; exact ⟨b1 / 4, by omega, h⟩
    · right; exact ⟨b1 % 4 * 16 + b2 / 16, by omega, h⟩
    · right; exact ⟨b2 % 16 * 4 + b3 / 64, by omega, h⟩
    · right; exact ⟨b3 % 64, by omega, h⟩
    · exact b64encode_mem tl (fun b hb => hby b (by simp [hb])) c h

theorem b64encode_ne_nil : ∀ (ch : List Nat), ch ≠ [] → b64encode ch ≠ []
  | [], h => absurd rfl h
  | [b1], _ => by simp [b64encode]
  | [b1, b2], _ => by simp [b64encode]
  | b1 :: b2 :: b3 :: tl, _ => by simp [b64encode]

/-- A character of a base64 line body: never a separator hit, never
whitespace, always ASCII. -/
theorem b64encode_char_good (ch : List Nat) (hby : ∀ b ∈ ch, b < 256) (c : Nat)
    (h : c ∈ b64encode ch) :
    c ≠ 45 ∧ c < 128 ∧ ¬ isPySpace c := by
  rcases b64encode_mem ch hby c h with h61 | ⟨v, hv, hc⟩
  · subst h61
    refine ⟨by omega, by omega, by simp [isPySpace]⟩
  · subst hc
    have := b64chr_facts v hv
    exact ⟨this.2.1, this.2.2.1, this.2.2.2⟩

theorem splitDDAux_step (c : Nat) (hc : c ≠ 45) (rest acc : List Nat) :
    splitDDAux acc (c :: rest) = splitDDAux (c :: acc) rest := by
  rw [splitDDAux.eq_def]
  split
  · rename_i heq
    simp at heq
  · rename_i rest1 heq
    injection heq with h1 _
    exact absurd h1 hc
  · rename_i c2 rest2 hno heq
    injection heq with h1 h2
    subst h1
    subst h2
    rfl

theorem splitDDAux_no_sep : ∀ (l : List Nat), (∀ c ∈ l, c ≠ 45) →
    ∀ (acc : List Nat), splitDDAux acc l = [acc.reverse ++ l]
  | [], _ => by intro acc; simp [splitDDAux]
  | c :: rest, h => by
    intro acc
    rw [splitDDAux_step c (h c (by simp)) rest acc]
    rw [splitDDAux_no_sep rest (fun d hd => h d (by simp [hd])) (c :: acc)]
    simp

theorem mem_of_getLast? {α : Type} (l : List α) (a : α) (h : l.getLast? = some a) :
    a ∈ l := by
  have h2 : l.reverse.head? = some a := by rw [List.head?_reverse, h]
  have h3 : a ∈ l.reverse.head? := Option.mem_def.mpr h2
  exact List.mem_reverse.mp (List.mem_of_mem_head? h3)

theorem pyStrip_frame (token : List Nat) (htok : token ≠ [])
    (hlast : ∀ c, token.getLast? = some c → ¬ isPySpace c) :
    pyStrip (pyStr "-- " ++ (token ++ [10])) = pyStr "-- " ++ token := by
  obtain ⟨c, hc⟩ : ∃ c, token.getLast? = some c := by
    cases hgl : token.getLast? with
    | none => exact absurd (List.getLast?_eq_none_iff.mp hgl) htok
    | some c => exact ⟨c, rfl⟩
  have hcs : ¬ isPySpace c := hlast c hc
  have hrev : token.reverse.head? = some c := by rw [List.head?_reverse, hc]
  obtain ⟨t2, ht2⟩ : ∃ t2, token.reverse = c :: t2 := by
    cases hr : token.reverse with
    | nil => rw [hr] at hrev; simp at hrev
    | cons a t2 =>
      rw [hr] at hrev
      simp at hrev
      exact ⟨t2, by rw [hrev]⟩
  show pyStrip (45 :: 45 :: 32 :: (token ++ [10])) = _
  unfold pyStrip
  rw [List.dropWhile_cons, if_neg (by decide)]
  have h1 : (45 :: 45 :: 32 :: (token ++ [10])).reverse =
      10 :: (token.reverse ++ [32, 45, 45]) := by simp
  rw [h1, List.dropWhile_cons, if_pos (by decide), ht2]
  rw [show (c :: t2) ++ [32, 45, 45] = c :: (t2 ++ [32, 45, 45]) from rfl]
  rw [List.dropWhile_cons, if_neg (by simp only [decide_eq_true_eq]; exact hcs)]
  have h2 : (c :: (t2 ++ [32, 45, 45])).reverse = [45, 45, 32] ++ (t2.reverse ++ [c]) := by
    simp
  rw [h2]
  have ht : t2.reverse ++ [c] = token := by
    have h3 := congrArg List.reverse ht2
    simpa using h3.symm
  rw [ht]
  rfl

theorem getCode_dashdash (token : List Nat) (h45 : ∀ c ∈ token, c ≠ 45) :
    getCode (pyStr "-- " ++ token) =
      (do
        let t2 := if token.length % 4 ≠ 0 then
            token ++ List.replicate (4 - token.length % 4) 61
          else token
        let bs ← utf8EncodeE t2
        let dec ← b64decodeE bs
        utf8DecodeE dec) := by
  unfold getCode splitDD
  rw [show pyStr "-- " ++ token = 45 :: 45 :: 32 :: token from rfl,
    show splitDDAux [] (45 :: 45 :: 32 :: token) =
      List.reverse [] :: splitDDAux [] token from rfl,
    splitDDAux_no_sep token h45 []]
  rfl

/-! ## XML model and the Response classes (python3/vdebug/dbgp.py)

A parsed `xml.etree.ElementTree.Element` is modelled as `XElem`: a
qualified tag, the attribute list, the element text (`None` or a string)
and the child elements.  `Element.get` returns the attribute value,
`Element.find` the first direct child with the given qualified tag. -/

theorem foldl_decimal (L : List Nat) (a : Nat) :
    List.foldl (fun x d => x * 10 + d) a L.reverse =
      a * 10 ^ L.length + Nat.ofDigits 10 L := by
  induction L generalizing a with
  | nil => simp [Nat.ofDigits]
  | cons d T ih =>
    simp only [List.reverse_cons, List.foldl_append, List.foldl_cons, List.foldl_nil,
      Nat.ofDigits_cons, List.length_cons, ih]
    ring

theorem natToDecimal_digits (n : Nat) : ∀ c ∈ natToDecimal n, isPyDigit c := by
  unfold natToDecimal
  split
  · intro c hc
    simp at hc
    simp [hc, isPyDigit]
  · intro c hc
    simp only [List.mem_reverse, List.mem_map] at hc
    obtain ⟨d, hd, rfl⟩ := hc
    have : d < 10 := Nat.digits_lt_base (by norm_num) hd
    constructor <;> omega

theorem natToDecimal_ne_nil (n : Nat) : natToDecimal n ≠ [] := by
  unfold natToDecimal
  split
  · simp
  · simp only [ne_eq, List.reverse_eq_nil_iff, List.map_eq_nil_iff]
    exact Nat.digits_ne_nil_iff_ne_zero.mpr (by assumption)

theorem foldl_sub48_map (L : List Nat) (a : Nat) :
    List.foldl (fun x c => x * 10 + (c - 48)) a (L.map (· + 48)) =
      List.foldl (fun x d => x * 10 + d) a L := by
  induction L generalizing a with
  | nil => rfl
  | cons d T ih => simp only [List.map_cons, List.foldl_cons, Nat.add_sub_cancel, ih]

theorem decimalValue_natToDecimal (n : Nat) : decimalValue (natToDecimal n) = n := by
  unfold decimalValue natToDecimal
  split
  · simp_all
  · rw [← List.map_reverse, foldl_sub48_map, foldl_decimal]
    simp [Nat.ofDigits_digits]

theorem pyInt?_natToDecimal (n : Nat) : pyInt? (natToDecimal n) = some n := by
  unfold pyInt?
  rw [if_pos ⟨natToDecimal_ne_nil n, natToDecimal_digits n⟩, decimalValue_natToDecimal]

/-! ### Framing-behaviour lemmas -/

theorem recvLength_digits (ds : List Nat) (hds : ∀ c ∈ ds, isPyDigit c) :
    ∀ (rest acc : List Nat),
      recvLength (ds ++ 0 :: rest) acc =
        match pyInt? (acc ++ ds) with
        | some n => .ok (n, rest)
        | none => .error .valueError := by
  induction ds with
  | nil =>
    intro rest acc
    simp [recvLength]
  | cons d ds ih =>
    intro rest acc
    have hd : isPyDigit d := hds d (by simp)
    have hne : ¬ d = 0 := by unfold isPyDigit at hd; omega
    rw [List.cons_append, recvLength, if_neg hne, if_pos hd,
      ih (fun c hc => hds c (by simp [hc])) rest (acc ++ [d])]
    simp

theorem recvLength_skips_nondigits (junk : List Nat)
    (hj : ∀ c ∈ junk, ¬ isPyDigit c ∧ c ≠ 0) :
    ∀ (s acc : List Nat), recvLength (junk ++ s) acc = recvLength s acc := by
  induction junk with
  | nil => intro s acc; rfl
  | cons c junk ih =>
    intro s acc
    have hc := hj c (by simp)
    rw [List.cons_append, recvLength, if_neg hc.2, if_neg hc.1,
      ih (fun d hd => hj d (by simp [hd])) s acc]

theorem exceptBind_ok {α β : Type} (a : α) (f : α → Except PyErr β) :
    (Except.ok a >>= f) = f a := rfl

theorem recvBody_exact (p rest : List Nat) :
    recvBody p.length (p ++ rest) = .ok (p, rest) := by
  induction p with
  | nil => rfl
  | cons c p ih => simp [recvBody, ih]

theorem recvMsg_frame (p rest : List Nat) :
    recvMsg (frameWire p ++ rest) = .ok (p, rest) := by
  unfold recvMsg frameWire
  have h1 : natToDecimal p.length ++ [0] ++ p ++ [0] ++ rest =
      natToDecimal p.length ++ 0 :: (p ++ 0 :: rest) := by simp
  rw [h1, recvLength_digits (natToDecimal p.length) (natToDecimal_digits _) _ []]
  simp only [List.nil_append, pyInt?_natToDecimal]
  rw [exceptBind_ok, recvBody_exact p (0 :: rest)]
  rfl

/-! ### Claim theorems for the Transport layer -/

/-- C1 (counterexample): feeding the output of the framed send directly into
the framed receive does not reproduce the payload, already for the empty
payload: `send_msg` emits only `payload NUL`, so `__recv_length` meets the
NUL with no digits accumulated and `int('')` raises a `ValueError`. -/
theorem c1_send_recv_counterexample :
    recvMsg (sendMsg []) = .error .valueError := rfl

/-- C1 (amended): a framed receive applied to a message framed per the wire
grammar — decimal length prefix, NUL, the n-byte payload, NUL — reproduces
exactly the original n bytes (including n = 0) and consumes nothing past the
trailing NUL.  The framed send itself emits only `payload NUL`; the length
prefix must come from the peer. -/
theorem c1_frame_roundtrip :
    ∀ (p rest : List Nat), recvMsg (frameWire p ++ rest) = .ok (p, rest) :=
  recvMsg_frame

/-- C2: `Connection.__init__` stores the literal 9000 as the port no matter
which port the caller supplies (contradicting its own docstring, which says
host, port and timeout are configurable on construction); host and timeout
are taken from the arguments. -/
theorem c2_port_hardcoded :
    (∀ h p t, (Connection.init h p t).port = 9000 ∧
      (Connection.init h p t).host = h ∧ (Connection.init h p t).timeout = t) ∧
    (Connection.init (pyStr "") 9001 30).port ≠ 9001 :=
  ⟨fun _ _ _ => ⟨rfl, rfl, rfl⟩, by decide⟩

/-- C3 (counterexample): a length-prefix byte that is neither a digit nor
NUL (here 97, the letter a) does not make the receive fail: the stream
`a 0 NUL NUL` is received successfully as the empty payload. -/
theorem c3_junk_byte_counterexample :
    recvMsg [97, 48, 0, 0] = .ok ([], []) := rfl

/-- C3 (amended): while reading the length prefix, a byte that is neither an
ASCII digit nor the terminating NUL is silently discarded — it does not
change the result of the length read, and no malformed-length error is
raised. -/
theorem c3_nondigit_ignored :
    ∀ (junk s acc : List Nat), (∀ c ∈ junk, ¬ isPyDigit c ∧ c ≠ 0) →
      recvLength (junk ++ s) acc = recvLength s acc :=
  fun junk s acc hj => recvLength_skips_nondigits junk hj s acc

/-- Witness for `c3_nondigit_ignored` at the concrete junk byte 97. -/
theorem c3_nondigit_ignored_witness :
    (∀ c ∈ [97], ¬ isPyDigit c ∧ c ≠ 0) ∧
      recvLength ([97] ++ [48, 0]) [] = recvLength [48, 0] [] :=
  ⟨by decide, c3_nondigit_ignored [97] [48, 0] [] (by decide)⟩

/-! ### Claim theorems for the eval round trip -/

/-- C6 (counterexample): for the empty source text, `Api.eval` builds the
argument string `-- ` whose trailing space `send_cmd`'s `strip()` removes,
so the stored argument string is `--`, `split('-- ')` returns a one-element
list, and `get_code` fails with an `IndexError` instead of recovering the
empty string. -/
theorem c6_empty_counterexample :
    (apiEvalStoredArgs []).bind getCode = .error .indexError := rfl

/-- C6 (amended): for every eval command issued with a non-empty source
text s (the command is issued exactly when `s.encode("utf-8")` succeeds,
i.e. s contains no lone surrogate), recovering the code from the stored
argument string — splitting on the literal `-- `, re-padding the token
with trailing `=` characters up to the next multiple of four characters
when its length is not a multiple of four, and base64-decoding it — yields
exactly s.  For the empty source text the recovery fails with an
`IndexError` (see the counterexample). -/
theorem c6_eval_roundtrip (s bs : List Nat) (hne : s ≠ [])
    (henc : utf8Encode? s = some bs) :
    ∃ args, apiEvalStoredArgs s = .ok args ∧ getCode args = .ok s := by
  obtain ⟨hscalar, hbs⟩ := utf8Encode?_eq_some henc
  have hbytes : ∀ b ∈ bs, b < 256 := by
    intro b hb
    rw [hbs, List.mem_flatten] at hb
    obtain ⟨l, hl, hbl⟩ := hb
    rw [List.mem_map] at hl
    obtain ⟨cp, hcp, rfl⟩ := hl
    exact utf8EncodeChar_lt256 cp (hscalar cp hcp) b hbl
  have hbsne : bs ≠ [] := by
    rw [hbs]
    cases s with
    | nil => exact absurd rfl hne
    | cons c s2 =>
      simp only [List.map_cons, List.flatten_cons]
      intro hnil
      rcases List.append_eq_nil.mp hnil with ⟨h1, _⟩
      exact utf8EncodeChar_ne_nil c h1
  have hCne : chunks57 bs ≠ [] := chunks57_ne_nil bs hbsne
  have hCfull : ∀ ch ∈ (chunks57 bs).dropLast, ch.length % 3 = 0 := by
    intro ch hch
    have := chunks57_dropLast_full bs ch hch
    omega
  have hCbytes : ∀ ch ∈ chunks57 bs, ∀ b ∈ ch, b < 256 := by
    intro ch hch b hb
    refine hbytes b ?_
    rw [← chunks57_flatten bs]
    exact List.mem_flatten.mpr ⟨ch, hch, hb⟩
  have hencb : encodebytesPy bs = joinNl ((chunks57 bs).map b64encode) ++ [10] := by
    unfold encodebytesPy
    rw [show (chunks57 bs).map (fun ch => b64encode ch ++ [10]) =
        ((chunks57 bs).map b64encode).map (· ++ [10]) from by rw [List.map_map]; rfl]
    exact flatten_nl ((chunks57 bs).map b64encode) (by simpa using hCne)
  have htokchars : ∀ c ∈ joinNl ((chunks57 bs).map b64encode),
      c = 10 ∨ (c ≠ 45 ∧ c < 128 ∧ ¬ isPySpace c) := by
    intro c hc
    rcases joinNl_mem ((chunks57 bs).map b64encode) c hc with h | ⟨l, hl, hcl⟩
    · left; exact h
    · right
      rw [List.mem_map] at hl
      obtain ⟨ch, hch, rfl⟩ := hl
      exact b64encode_char_good ch (hCbytes ch hch) c hcl
  have htokascii : ∀ c ∈ joinNl ((chunks57 bs).map b64encode), c < 128 := by
    intro c hc
    rcases htokchars c hc with h | h
    · omega
    · exact h.2.1
  have htok45 : ∀ c ∈ joinNl ((chunks57 bs).map b64encode), c ≠ 45 := by
    intro c hc
    rcases htokchars c hc with h | h
    · omega
    · exact h.1
  obtain ⟨lastch, hlastch⟩ : ∃ l, (chunks57 bs).getLast? = some l := by
    cases h : (chunks57 bs).getLast? with
    | none => exact absurd (List.getLast?_eq_none_iff.mp h) hCne
    | some l => exact ⟨l, rfl⟩
  have hlastmem : lastch ∈ chunks57 bs := mem_of_getLast? _ lastch hlastch
  have hlastne : lastch ≠ [] := chunks57_mem_ne_nil bs lastch hlastmem
  have henclast : ((chunks57 bs).map b64encode).getLast? = some (b64encode lastch) := by
    rw [List.getLast?_map, hlastch]
    rfl
  have htoklast : (joinNl ((chunks57 bs).map b64encode)).getLast? =
      (b64encode lastch).getLast? :=
    joinNl_getLast? ((chunks57 bs).map b64encode) (b64encode lastch)
      (b64encode_ne_nil lastch hlastne) henclast
  have htokne : joinNl ((chunks57 bs).map b64encode) ≠ [] := by
    intro h
    rw [h] at htoklast
    exact b64encode_ne_nil lastch hlastne (List.getLast?_eq_none_iff.mp htoklast.symm)
  have htoklastgood : ∀ c, (joinNl ((chunks57 bs).map b64encode)).getLast? = some c →
      ¬ isPySpace c := by
    intro c hcg
    rw [htoklast] at hcg
    exact (b64encode_char_good lastch (hCbytes lastch hlastmem) c
      (mem_of_getLast? _ c hcg)).2.2
  have hargs : apiEvalStoredArgs s = .ok (pyStr "-- " ++ joinNl ((chunks57 bs).map b64encode)) := by
    unfold apiEvalStoredArgs utf8EncodeE utf8DecodeE
    rw [henc, exceptBind_ok, hencb,
      utf8Decode_ascii _ (by
        intro c hc
        rcases List.mem_append.mp hc with h | h
        · exact htokascii c h
        · simp at h; omega)]
    rw [exceptBind_ok, pyStrip_frame _ htokne htoklastgood]
  refine ⟨_, hargs, ?_⟩
  rw [getCode_dashdash _ htok45]
  have hmain : ∀ k : Nat,
      (do
        let bsr ← utf8EncodeE (joinNl ((chunks57 bs).map b64encode) ++ List.replicate k 61)
        let dec ← b64decodeE bsr
        utf8DecodeE dec) = (.ok s : Except PyErr (List Nat)) := by
    intro k
    rw [show utf8EncodeE (joinNl ((chunks57 bs).map b64encode) ++ List.replicate k 61) =
        .ok (joinNl ((chunks57 bs).map b64encode) ++ List.replicate k 61) from by
      unfold utf8EncodeE
      rw [utf8Encode_ascii _ (by
        intro c hc
        rcases List.mem_append.mp hc with h | h
        · exact htokascii c h
        · rw [List.eq_of_mem_replicate h]; omega)]]
    rw [exceptBind_ok]
    rw [show b64decodeE (joinNl ((chunks57 bs).map b64encode) ++ List.replicate k 61) =
        .ok bs from by
      unfold b64decodeE a2bBase64
      rw [a2b_chunkList (chunks57 bs) hCne hCfull hCbytes k 0 0 []]
      simp [chunks57_flatten]]
    rw [exceptBind_ok]
    unfold utf8DecodeE
    rw [hbs, utf8_roundtrip s hscalar]
  by_cases hmod : (joinNl ((chunks57 bs).map b64encode)).length % 4 ≠ 0
  · rw [if_pos hmod]
    exact hmain _
  · rw [if_neg hmod]
    have := hmain 0
    simpa using this

/-- Witness for `c6_eval_roundtrip` at the concrete source text `echo 1;`
(the spec's own example), an ASCII string whose UTF-8 encoding is itself. -/
theorem c6_eval_roundtrip_witness :
    pyStr "echo 1;" ≠ [] ∧ utf8Encode? (pyStr "echo 1;") = some (pyStr "echo 1;") ∧
      ∃ args, apiEvalStoredArgs (pyStr "echo 1;") = .ok args ∧
        getCode args = .ok (pyStr "echo 1;") :=
  ⟨by decide, by decide,
    c6_eval_roundtrip (pyStr "echo 1;") (pyStr "echo 1;") (by decide) (by decide)⟩

/-! ### Error-classification lemmas and claim theorems (C4, C8, C10) -/

theorem responseInit_true (xml : XElem) :
    responseInit true xml =
      match determineNs xml with
      | .error e => .error e
      | .ok ns => .error (parseError ns xml) := rfl

theorem parseError_found (ns : List Nat) (xml errEl2 : XElem)
    (herr : findChild xml (ns ++ pyStr "error") = some errEl2) :
    parseError ns xml = parseErrorWithEl ns errEl2 := by
  unfold parseError
  rw [herr]

theorem parseErrorWithEl_code (ns : List Nat) (errEl2 : XElem) (codeStr : List Nat)
    (hcode : attrGet errEl2 (pyStr "code") = some codeStr) :
    parseErrorWithEl ns errEl2 = parseErrorCode ns errEl2 codeStr := by
  unfold parseErrorWithEl
  rw [hcode]

theorem parseErrorCode_int (ns : List Nat) (errEl2 : XElem) (codeStr : List Nat)
    (c : Nat) (hparse : pyInt? codeStr = some c) :
    parseErrorCode ns errEl2 codeStr =
      if c = 4 then PyErr.cmdNotImplemented
      else
        match findChild errEl2 (ns ++ pyStr "message") with
        | none => PyErr.responseError (pyStr "Missing error message in response")
        | some msgEl => PyErr.dbgpError msgEl.text codeStr := by
  unfold parseErrorCode
  rw [hparse]

theorem parseError_ne_evalError (ns : List Nat) (xml : XElem) :
    parseError ns xml ≠ .evalError := by
  unfold parseError parseErrorWithEl parseErrorCode
  repeat' split
  all_goals simp

theorem responseInit_ne_evalError (b : Bool) (x : XElem) :
    responseInit b x ≠ .error .evalError := by
  cases b with
  | false => simp [responseInit]
  | true =>
    rw [responseInit_true]
    cases hd : determineNs x with
    | error e =>
      intro hcon
      have h2 : e = .evalError := by
        injection hcon
      subst h2
      unfold determineNs at hd
      split at hd
      · exact absurd hd (by simp)
      · split at hd
        · exact absurd hd (by simp)
        · exact absurd hd (by simp)
    | ok ns =>
      intro hcon
      have h2 : parseError ns x = .evalError := by
        injection hcon
      exact parseError_ne_evalError ns x h2

/-- C4 (counterexample): an eval response whose error element carries code
206 but no nested message element raises the response-format error
`Missing error message in response`, not the evaluation-error the claim
promises for code 206 from eval. -/
theorem c4_206_no_message_counterexample :
    evalResponseInit true (errPayload (pyStr "206") none) =
      .error (.responseError (pyStr "Missing error message in response")) := rfl

/-- C4 (amended): when a response payload carries an error element whose
code attribute parses to the integer c: code 4 raises
command-not-implemented from any command, eval included, regardless of the
message element; when a nested message element is present, code 206 raises
evaluation-error exactly from the eval response and the generic
reported-error (carrying the code and message) from any other response,
and any other code raises the generic reported-error from both; when the
message element is absent and c is not 4, both raise the response-format
error `Missing error message in response` instead.  Evaluation-error is
never raised outside the eval path. -/
theorem c4_error_code_classification (xml errEl2 : XElem) (ns codeStr : List Nat)
    (c : Nat) (hns : determineNs xml = .ok ns)
    (herr : findChild xml (ns ++ pyStr "error") = some errEl2)
    (hcode : attrGet errEl2 (pyStr "code") = some codeStr)
    (hparse : pyInt? codeStr = some c) :
    (c = 4 → responseInit true xml = .error .cmdNotImplemented ∧
       evalResponseInit true xml = .error .cmdNotImplemented) ∧
    (∀ msgEl2, findChild errEl2 (ns ++ pyStr "message") = some msgEl2 → c ≠ 4 →
       responseInit true xml = .error (.dbgpError msgEl2.text codeStr) ∧
       evalResponseInit true xml =
         (if c = 206 then .error .evalError
          else .error (.dbgpError msgEl2.text codeStr))) ∧
    (findChild errEl2 (ns ++ pyStr "message") = none → c ≠ 4 →
       responseInit true xml =
         .error (.responseError (pyStr "Missing error message in response")) ∧
       evalResponseInit true xml =
         .error (.responseError (pyStr "Missing error message in response"))) ∧
    (∀ (b : Bool) (x : XElem), responseInit b x ≠ .error .evalError) := by
  have hresp : responseInit true xml = .error (parseError ns xml) := by
    rw [responseInit_true, hns]
  refine ⟨?_, ?_, ?_, responseInit_ne_evalError⟩
  · intro hc4
    subst hc4
    have hpe : parseError ns xml = .cmdNotImplemented := by
      rw [parseError_found ns xml errEl2 herr, parseErrorWithEl_code ns errEl2 codeStr hcode,
        parseErrorCode_int ns errEl2 codeStr 4 hparse, if_pos rfl]
    refine ⟨by rw [hresp, hpe], ?_⟩
    unfold evalResponseInit
    rw [hresp, hpe]
  · intro msgEl2 hmsg hc4
    have hpe : parseError ns xml = .dbgpError msgEl2.text codeStr := by
      rw [parseError_found ns xml errEl2 herr, parseErrorWithEl_code ns errEl2 codeStr hcode,
        parseErrorCode_int ns errEl2 codeStr c hparse, if_neg hc4, hmsg]
    refine ⟨by rw [hresp, hpe], ?_⟩
    unfold evalResponseInit
    rw [hresp, hpe]
    show (match pyInt? codeStr with
          | none => Except.error PyErr.valueError
          | some c2 =>
            if c2 = 206 then Except.error PyErr.evalError
            else Except.error (PyErr.dbgpError msgEl2.text codeStr)) = _
    rw [hparse]
  · intro hmsg hc4
    have hpe : parseError ns xml =
        .responseError (pyStr "Missing error message in response") := by
      rw [parseError_found ns xml errEl2 herr, parseErrorWithEl_code ns errEl2 codeStr hcode,
        parseErrorCode_int ns errEl2 codeStr c hparse, if_neg hc4, hmsg]
    refine ⟨by rw [hresp, hpe], ?_⟩
    unfold evalResponseInit
    rw [hresp, hpe]

/-- Witness for `c4_error_code_classification` at a concrete payload with
code 206 and a message element: the eval response raises evaluation-error,
the plain response the generic reported-error. -/
theorem c4_error_code_classification_witness :
    evalResponseInit true (errPayload (pyStr "206") (some (pyStr "invalid expression"))) =
      .error .evalError ∧
    responseInit true (errPayload (pyStr "206") (some (pyStr "invalid expression"))) =
      .error (.dbgpError (some (pyStr "invalid expression")) (pyStr "206")) := by
  have h := c4_error_code_classification
    (errPayload (pyStr "206") (some (pyStr "invalid expression")))
    (errElX (pyStr "206") (some (pyStr "invalid expression")))
    dbgpNs (pyStr "206") 206 rfl rfl rfl (by decide)
  obtain ⟨-, h2, -, -⟩ := h
  have h3 := h2 (msgElX (pyStr "invalid expression")) rfl (by decide)
  exact ⟨by rw [h3.2]; rfl, h3.1⟩

/-- C8 (counterexample): an error element with code 200 and no nested
message element raises the response-format error `Missing error message in
response`, not the reported-error the claim promises when the message
element is absent. -/
theorem c8_missing_message_counterexample :
    responseInit true (errPayload (pyStr "200") none) =
      .error (.responseError (pyStr "Missing error message in response")) := rfl

/-- C8 (amended): a response whose error element carries a code attribute
(other than the special-cased codes 4 and 206) raises the reported-error
carrying that code, with the message text attached, when a nested message
element is present; the message element is required — its absence raises a
response-format error (`Missing error message in response`) instead of the
reported-error. -/
theorem c8_reported_error (xml errEl2 : XElem) (ns codeStr : List Nat) (c : Nat)
    (hns : determineNs xml = .ok ns)
    (herr : findChild xml (ns ++ pyStr "error") = some errEl2)
    (hcode : attrGet errEl2 (pyStr "code") = some codeStr)
    (hparse : pyInt? codeStr = some c) (h4 : c ≠ 4) (_h206 : c ≠ 206) :
    (∀ msgEl2, findChild errEl2 (ns ++ pyStr "message") = some msgEl2 →
       responseInit true xml = .error (.dbgpError msgEl2.text codeStr)) ∧
    (findChild errEl2 (ns ++ pyStr "message") = none →
       responseInit true xml =
         .error (.responseError (pyStr "Missing error message in response"))) := by
  have hresp : responseInit true xml = .error (parseError ns xml) := by
    rw [responseInit_true, hns]
  constructor
  · intro msgEl2 hmsg
    rw [hresp, parseError_found ns xml errEl2 herr,
      parseErrorWithEl_code ns errEl2 codeStr hcode,
      parseErrorCode_int ns errEl2 codeStr c hparse, if_neg h4, hmsg]
  · intro hmsg
    rw [hresp, parseError_found ns xml errEl2 herr,
      parseErrorWithEl_code ns errEl2 codeStr hcode,
      parseErrorCode_int ns errEl2 codeStr c hparse, if_neg h4, hmsg]

/-- Witness for `c8_reported_error` at a concrete payload with code 200 and
message text `no such property`. -/
theorem c8_reported_error_witness :
    responseInit true (errPayload (pyStr "200") (some (pyStr "no such property"))) =
      .error (.dbgpError (some (pyStr "no such property")) (pyStr "200")) := by
  have h := c8_reported_error
    (errPayload (pyStr "200") (some (pyStr "no such property")))
    (errElX (pyStr "200") (some (pyStr "no such property")))
    dbgpNs (pyStr "200") 200 rfl rfl rfl (by decide) (by decide) (by decide)
  exact h.1 (msgElX (pyStr "no such property")) rfl

/-- C10: when an eval command's response carries an error element with code
4, constructing the eval response raises command-not-implemented: the
eval-specific handler catches only `DBGPError` (the generic reported
error), so `CmdNotImplementedError` passes through unchanged, whether or
not a message element is present. -/
theorem c10_eval_code4_passthrough (xml errEl2 : XElem) (ns codeStr : List Nat)
    (hns : determineNs xml = .ok ns)
    (herr : findChild xml (ns ++ pyStr "error") = some errEl2)
    (hcode : attrGet errEl2 (pyStr "code") = some codeStr)
    (hparse : pyInt? codeStr = some 4) :
    evalResponseInit true xml = .error .cmdNotImplemented ∧
      responseInit true xml = .error .cmdNotImplemented := by
  have hresp : responseInit true xml = .error (parseError ns xml) := by
    rw [responseInit_true, hns]
  have hpe : parseError ns xml = .cmdNotImplemented := by
    rw [parseError_found ns xml errEl2 herr, parseErrorWithEl_code ns errEl2 codeStr hcode,
      parseErrorCode_int ns errEl2 codeStr 4 hparse, if_pos rfl]
  refine ⟨?_, by rw [hresp, hpe]⟩
  unfold evalResponseInit
  rw [hresp, hpe]

/-- Witness for `c10_eval_code4_passthrough` at a concrete payload with
code 4 and no message element. -/
theorem c10_eval_code4_passthrough_witness :
    evalResponseInit true (errPayload (pyStr "4") none) = .error .cmdNotImplemented ∧
      responseInit true (errPayload (pyStr "4") none) = .error .cmdNotImplemented :=
  c10_eval_code4_passthrough (errPayload (pyStr "4") none) (errElX (pyStr "4") none)
    dbgpNs (pyStr "4") rfl rfl rfl (by decide)

/-! ### Property-builder lemmas and claim theorems (C5, C7, C9) -/

theorem exceptBindE_ok {α β : Type} (a : α) (f : α → Except PyErr β) :
    (Except.ok a).bind f = f a := rfl

/-- One `ContextProperty.__init__` step with the results of its stages
given as hypotheses. -/
theorem buildProp_spec (tag : List Nat) (attrs : List (List Nat × List Nat))
    (text : Option (List Nat)) (elKids : List XElem) (depth : Nat) (dn : List Nat)
    (declared : Nat) (vp : List Nat × Option Nat) (kids : List PropTree)
    (hdn : determineDisplayName (XElem.mk tag attrs text elKids)
      (determineType (XElem.mk tag attrs text elKids)) = .ok dn)
    (hdecl : determineChildren (XElem.mk tag attrs text elKids) = .ok declared)
    (hval : determineValue (XElem.mk tag attrs text elKids)
      (determineType (XElem.mk tag attrs text elKids))
      (attrGet (XElem.mk tag attrs text elKids) (pyStr "encoding"))
      (decide (0 < declared)) = .ok vp)
    (hkids : (if decide (0 < declared) then buildKids elKids 0 declared depth
      else pure []) = .ok kids) :
    buildProp (XElem.mk tag attrs text elKids) depth =
      .ok (.node (determineType (XElem.mk tag attrs text elKids)) dn
        (attrGet (XElem.mk tag attrs text elKids) (pyStr "encoding")) depth
        (if determineType (XElem.mk tag attrs text elKids) == pyStr "scalar" then
          some (Sum.inr ((vp.1.length : Int) - 2))
         else (attrGet (XElem.mk tag attrs text elKids) (pyStr "size")).map Sum.inl)
        vp.1 vp.2 declared (decide (0 < declared)) false kids) := by
  rw [buildProp.eq_1, hdn, exceptBindE_ok, hdecl, exceptBindE_ok, hval, exceptBindE_ok,
    hkids, exceptBindE_ok]
  rfl

theorem find?_replicate_none {α : Type} (p : α → Bool) (x : α) (h : p x = false) :
    ∀ m, List.find? p (List.replicate m x) = none := by
  intro m
  induction m with
  | zero => rfl
  | succ m ih =>
    rw [List.replicate_succ, List.find?_cons_of_neg _ (by simp [h]), ih]

theorem buildProp_leaf (dp : Nat) : buildProp leafElDefault dp = .ok (leafTree dp) := rfl

theorem buildKids_leaf_step (rest : List XElem) (idx d dp : Nat) :
    buildKids (leafElDefault :: rest) idx d dp =
      (buildKids rest (idx + 1) d dp).bind fun ps =>
        pure ((if idx + 1 = d then markLast (leafTree (dp + 1))
          else leafTree (dp + 1)) :: ps) := rfl

theorem buildKids_replicate (m : Nat) : ∀ (idx d dp : Nat),
    buildKids (List.replicate m leafElDefault) idx d dp =
      .ok ((List.range m).map fun i =>
        if idx + i + 1 = d then markLast (leafTree (dp + 1)) else leafTree (dp + 1)) := by
  induction m with
  | zero => intros; rfl
  | succ m ih =>
    intro idx d dp
    rw [List.replicate_succ, buildKids_leaf_step, ih (idx + 1) d dp, exceptBindE_ok]
    rw [List.range_succ_eq_map, List.map_cons, List.map_map]
    show Except.ok _ = Except.ok _
    congr 2
    apply List.map_congr_left
    intro i hi
    simp only [Function.comp_apply]
    have h : idx + (i + 1) + 1 = idx + 1 + i + 1 := by omega
    rw [h]

theorem buildProp_container (d m : Nat) (hd : 0 < d) :
    buildProp (containerEl d m) 0 =
      .ok (.node (pyStr "array") [] none 0 none [] none d (decide (0 < d)) false
        ((List.range m).map fun i =>
          if 0 + i + 1 = d then markLast (leafTree 1) else leafTree 1)) := by
  have hdt : decide (0 < d) = true := decide_eq_true hd
  have hdn : determineDisplayName (containerEl d m)
      (determineType (containerEl d m)) = .ok [] := by
    unfold determineDisplayName
    rw [show attrGet (containerEl d m) (pyStr "fullname") = none from rfl]
    rw [show getEncNodeText (containerEl d m) (pyStr "fullname") (some []) =
        .ok (some []) from by
      unfold getEncNodeText findChild
      rw [show XElem.kids (containerEl d m) = List.replicate m leafElDefault from rfl]
      rw [find?_replicate_none _ leafElDefault (by decide) m]]
    rfl
  have hdecl : determineChildren (containerEl d m) = .ok d := by
    show (match pyInt? (natToDecimal d) with
      | some n => Except.ok n
      | none => Except.error PyErr.valueError) = Except.ok d
    rw [pyInt?_natToDecimal]
  have hval : determineValue (containerEl d m) (determineType (containerEl d m))
      (attrGet (containerEl d m) (pyStr "encoding")) (decide (0 < d)) = .ok ([], none) := by
    rw [hdt]
    rfl
  have hkids : (if decide (0 < d) then buildKids (List.replicate m leafElDefault) 0 d 0
      else pure []) = .ok ((List.range m).map fun i =>
        if 0 + i + 1 = d then markLast (leafTree 1) else leafTree 1) := by
    rw [hdt, if_pos rfl]
    exact buildKids_replicate m 0 d 0
  exact buildProp_spec tagProperty
    [(pyStr "type", pyStr "array"), (pyStr "numchildren", natToDecimal d)] none
    (List.replicate m leafElDefault) 0 [] d ([], none) _ hdn hdecl hval hkids

/-- C5 (counterexample): a container node with `numchildren="2"` and three
matching child elements flags its second child, not its third (and last):
the built flags in document order are `[false, true, false]`, while the
claim requires the flag to be on the last child by position. -/
theorem c5_last_child_counterexample :
    (buildProp c5cxNode 0).map (fun t => t.children.map PropTree.isLastChild) =
      .ok [false, true, false] := rfl

theorem get_map_range {α : Type} (f : Nat → α) (m i : Nat)
    (h : i < ((List.range m).map f).length) :
    ((List.range m).map f).get ⟨i, h⟩ = f i := by
  rw [List.get_eq_getElem]
  simp

/-- C5 (amended): when a property node's children are built, the child whose
running index equals the declared child count is the one flagged as the
last child (and no other child is); when exactly the declared number of
matching children are present this is the last child in document order;
when fewer matching child elements are present than the declared count, no
child is flagged and no error is raised. -/
theorem c5_declared_count_marks_child (d m : Nat) (hd : 0 < d) :
    ∃ t, buildProp (containerEl d m) 0 = .ok t ∧ t.children.length = m ∧
      ∀ i (hi : i < t.children.length),
        (t.children.get ⟨i, hi⟩).isLastChild = decide (i + 1 = d) := by
  refine ⟨_, buildProp_container d m hd, ?_, ?_⟩
  · show ((List.range m).map _).length = m
    simp
  · intro i hi
    have hm : i < m := by
      simp only [PropTree.children] at hi
      simpa using hi
    show (((List.range m).map fun i =>
      if 0 + i + 1 = d then markLast (leafTree 1) else leafTree 1).get
        ⟨i, by simp [hm]⟩).isLastChild = _
    rw [get_map_range]
    by_cases hc : i + 1 = d
    · rw [if_pos (by omega), decide_eq_true hc]
      rfl
    · rw [if_neg (by omega), decide_eq_false hc]
      rfl

/-- Witness for `c5_declared_count_marks_child` at the spec's own example:
declared count 2 with exactly two children — the second is flagged, the
first is not. -/
theorem c5_declared_count_marks_child_witness :
    ∃ t, buildProp (containerEl 2 2) 0 = .ok t ∧ t.children.length = 2 ∧
      ∀ i (hi : i < t.children.length),
        (t.children.get ⟨i, hi⟩).isLastChild = decide (i + 1 = 2) :=
  c5_declared_count_marks_child 2 2 (by decide)

theorem determineValue_noC (node : XElem) (type : List Nat)
    (encoding : Option (List Nat)) (raw : List Nat)
    (h : resolveRawValue node type encoding false = .ok raw) :
    determineValue node type encoding false = .ok
      (if pyLower type == pyStr "string" || pyLower type == pyStr "str" ||
          pyLower type == pyStr "scalar" then 96 :: (escapeBackticks raw ++ [96])
        else raw, some (raw.count 10)) := by
  unfold determineValue
  rw [if_neg (by simp), h, exceptBindE_ok]

theorem determineValue_noC_err (node : XElem) (type : List Nat)
    (encoding : Option (List Nat)) (e : PyErr)
    (h : resolveRawValue node type encoding false = .error e) :
    determineValue node type encoding false = .error e := by
  unfold determineValue
  rw [if_neg (by simp), h]
  rfl

/-- C7: for every property node without children whose type is
case-insensitively `string`, `str` or `scalar`, the built value is the raw
resolved value wrapped in back-ticks with every embedded back-tick escaped
by a backslash. -/
theorem c7_stringlike_backtick_wrapped (tag : List Nat)
    (attrs : List (List Nat × List Nat)) (text : Option (List Nat))
    (elKids : List XElem) (p : PropTree) (raw : List Nat)
    (hdecl : determineChildren (XElem.mk tag attrs text elKids) = .ok 0)
    (htype : pyLower (determineType (XElem.mk tag attrs text elKids)) = pyStr "string" ∨
      pyLower (determineType (XElem.mk tag attrs text elKids)) = pyStr "str" ∨
      pyLower (determineType (XElem.mk tag attrs text elKids)) = pyStr "scalar")
    (hraw : resolveRawValue (XElem.mk tag attrs text elKids)
      (determineType (XElem.mk tag attrs text elKids))
      (attrGet (XElem.mk tag attrs text elKids) (pyStr "encoding")) false = .ok raw)
    (hbuild : buildProp (XElem.mk tag attrs text elKids) 0 = .ok p) :
    p.value = 96 :: (escapeBackticks raw ++ [96]) := by
  have hcond : (pyLower (determineType (XElem.mk tag attrs text elKids)) == pyStr "string" ||
      pyLower (determineType (XElem.mk tag attrs text elKids)) == pyStr "str" ||
      pyLower (determineType (XElem.mk tag attrs text elKids)) == pyStr "scalar") = true := by
    rcases htype with h | h | h <;> simp [h]
  cases hdn : determineDisplayName (XElem.mk tag attrs text elKids)
      (determineType (XElem.mk tag attrs text elKids)) with
  | error e =>
    rw [buildProp.eq_1, hdn] at hbuild
    exact absurd hbuild (by simp [Except.bind])
  | ok dn =>
    have hval : determineValue (XElem.mk tag attrs text elKids)
        (determineType (XElem.mk tag attrs text elKids))
        (attrGet (XElem.mk tag attrs text elKids) (pyStr "encoding"))
        (decide (0 < 0)) = .ok
          (96 :: (escapeBackticks raw ++ [96]), some (raw.count 10)) := by
      rw [show decide (0 < 0) = false from rfl, determineValue_noC _ _ _ raw hraw, hcond]
      rfl
    have hspec := buildProp_spec tag attrs text elKids 0 dn 0
      (96 :: (escapeBackticks raw ++ [96]), some (raw.count 10)) [] hdn hdecl hval rfl
    rw [hspec] at hbuild
    injection hbuild with h2
    rw [← h2]
    rfl

/-- Witness for `c7_stringlike_backtick_wrapped`: the value `a` back-tick
`b` renders back-tick-delimited with the embedded back-tick escaped. -/
theorem c7_stringlike_backtick_wrapped_witness :
    ∃ p, buildProp c7WitnessEl 0 = .ok p ∧
      p.value = 96 :: (escapeBackticks (pyStr "a`b") ++ [96]) := by
  obtain ⟨p, hp⟩ : ∃ p, buildProp c7WitnessEl 0 = .ok p := ⟨_, rfl⟩
  exact ⟨p, hp, c7_stringlike_backtick_wrapped tagProperty
    [(pyStr "type", pyStr "string")] (some (pyStr "a`b")) [] p (pyStr "a`b")
    rfl (Or.inl rfl) rfl hp⟩

theorem b64TextDecode_fallback (txt bytes dec : List Nat)
    (henc : utf8Encode? txt = some bytes)
    (ha2b : a2bBase64 bytes = .ok dec)
    (hdec : utf8Decode dec = none) :
    b64TextDecode txt = .ok txt := by
  unfold b64TextDecode
  rw [henc, show reqBytes (some bytes) = .ok bytes from rfl, exceptBindE_ok,
    ha2b, show reqDecoded (Except.ok dec) = .ok dec from rfl, exceptBindE_ok]
  unfold utf8OrRaw
  rw [hdec]

theorem b64TextDecode_err (txt bytes : List Nat) (e : B64Err)
    (henc : utf8Encode? txt = some bytes)
    (ha2b : a2bBase64 bytes = .error e) :
    b64TextDecode txt = .error .binasciiError := by
  unfold b64TextDecode
  rw [henc, show reqBytes (some bytes) = .ok bytes from rfl, exceptBindE_ok, ha2b]
  rfl

theorem resolveRaw_b64_own (txt type : List Nat)
    (hb : b64TextDecode txt = .ok txt) :
    resolveRawValue (b64LeafEl (some txt)) type (some (pyStr "base64")) false =
      .ok txt := by
  show ((b64TextDecode txt).map some).bind (fun v1 => Except.ok (v1.getD [])) = _
  rw [hb]
  rfl

theorem resolveRaw_b64_own_err (txt type : List Nat)
    (hb : b64TextDecode txt = .error .binasciiError) :
    resolveRawValue (b64LeafEl (some txt)) type (some (pyStr "base64")) false =
      .error .binasciiError := by
  show ((b64TextDecode txt).map some).bind (fun v1 => Except.ok (v1.getD [])) = _
  rw [hb]
  rfl

theorem findChild_b64ChildEl (name txt : List Nat) :
    findChild (b64ChildEl name txt) (propNs ++ name) =
      some (.mk (propNs ++ name) [(pyStr "encoding", pyStr "base64")]
        (some txt) []) := by
  unfold findChild
  rw [show XElem.kids (b64ChildEl name txt) =
    [XElem.mk (propNs ++ name) [(pyStr "encoding", pyStr "base64")]
      (some txt) []] from rfl]
  rw [List.find?_cons_of_pos]
  exact beq_self_eq_true (propNs ++ name)

theorem getEnc_b64_child (name txt : List Nat)
    (hb : b64TextDecode txt = .ok txt) :
    getEncNodeText (b64ChildEl name txt) name none = .ok (some txt) := by
  unfold getEncNodeText
  rw [findChild_b64ChildEl]
  show (b64TextDecode txt).map some = _
  rw [hb]
  rfl

theorem getEnc_b64_child_err (name txt : List Nat)
    (hb : b64TextDecode txt = .error .binasciiError) :
    getEncNodeText (b64ChildEl name txt) name none =
      .error .binasciiError := by
  unfold getEncNodeText
  rw [findChild_b64ChildEl]
  show (b64TextDecode txt).map some = _
  rw [hb]
  rfl

/-- C9 (counterexample): a property node whose own `encoding` is `base64`
and whose text is the unpadded token `YQ` does not fall back to the raw
text — `base64.b64decode` raises `binascii.Error` for incorrect padding
and the error propagates, so building the tree fails. -/
theorem c9_decode_failure_counterexample :
    buildProp (b64LeafEl (some (pyStr "YQ"))) 0 = .error .binasciiError := rfl

/-- C9 (amended): for a childless property node whose own `encoding`
attribute is `base64` (and likewise for every base64-encoded nested
element — `value`, `fullname` and `name` are all read through the shared
`_get_enc_node_text` helper, so the statement holds for every element
name), only a `UnicodeDecodeError` while decoding the successfully
base64-decoded bytes falls back to the raw text unmodified; an absent text
decodes to the empty string; but a `binascii.Error` from the base64 step
itself propagates and fails the whole parse. -/
theorem c9_base64_decode_fallback (txt bytes : List Nat)
    (henc : utf8Encode? txt = some bytes) :
    (∀ dec, a2bBase64 bytes = .ok dec → utf8Decode dec = none →
      buildProp (b64LeafEl (some txt)) 0 =
        .ok (.node (pyStr "unknown") [] (some (pyStr "base64")) 0 none txt
          (some (txt.count 10)) 0 false false []) ∧
      ∀ name, getEncNodeText (b64ChildEl name txt) name none = .ok (some txt)) ∧
    (∀ e, a2bBase64 bytes = .error e →
      buildProp (b64LeafEl (some txt)) 0 = .error .binasciiError ∧
      ∀ name, getEncNodeText (b64ChildEl name txt) name none =
        .error .binasciiError) ∧
    buildProp (b64LeafEl none) 0 =
      .ok (.node (pyStr "unknown") [] (some (pyStr "base64")) 0 none []
        (some 0) 0 false false []) := by
  refine ⟨?_, ?_, rfl⟩
  · intro dec ha2b hdec
    have hb := b64TextDecode_fallback txt bytes dec henc ha2b hdec
    have hraw := resolveRaw_b64_own txt (pyStr "unknown") hb
    refine ⟨?_, fun name => getEnc_b64_child name txt hb⟩
    have hval : determineValue (b64LeafEl (some txt))
        (determineType (b64LeafEl (some txt)))
        (attrGet (b64LeafEl (some txt)) (pyStr "encoding"))
        (decide (0 < 0)) = .ok (txt, some (txt.count 10)) := by
      rw [show decide (0 < 0) = false from rfl,
        show determineType (b64LeafEl (some txt)) = pyStr "unknown" from rfl,
        show attrGet (b64LeafEl (some txt)) (pyStr "encoding") =
          some (pyStr "base64") from rfl,
        determineValue_noC _ _ _ txt hraw]
      rfl
    exact buildProp_spec tagProperty [(pyStr "encoding", pyStr "base64")]
      (some txt) [] 0 [] 0 (txt, some (txt.count 10)) [] rfl rfl hval rfl
  · intro e ha2b
    have hb := b64TextDecode_err txt bytes e henc ha2b
    have hraw := resolveRaw_b64_own_err txt (pyStr "unknown") hb
    refine ⟨?_, fun name => getEnc_b64_child_err name txt hb⟩
    have hval : determineValue
        (XElem.mk tagProperty [(pyStr "encoding", pyStr "base64")] (some txt) [])
        (determineType
          (XElem.mk tagProperty [(pyStr "encoding", pyStr "base64")] (some txt) []))
        (attrGet
          (XElem.mk tagProperty [(pyStr "encoding", pyStr "base64")] (some txt) [])
          (pyStr "encoding"))
        (decide (0 < 0)) = .error .binasciiError := by
      rw [show decide (0 < 0) = false from rfl,
        show determineType
          (XElem.mk tagProperty [(pyStr "encoding", pyStr "base64")] (some txt) []) =
          pyStr "unknown" from rfl,
        show attrGet
          (XElem.mk tagProperty [(pyStr "encoding", pyStr "base64")] (some txt) [])
          (pyStr "encoding") = some (pyStr "base64") from rfl]
      exact determineValue_noC_err _ _ _ _ hraw
    show buildProp
      (XElem.mk tagProperty [(pyStr "encoding", pyStr "base64")] (some txt) []) 0 = _
    rw [buildProp.eq_1,
      show determineDisplayName
        (XElem.mk tagProperty [(pyStr "encoding", pyStr "base64")] (some txt) [])
        (determineType
          (XElem.mk tagProperty [(pyStr "encoding", pyStr "base64")] (some txt) [])) =
        Except.ok [] from rfl,
      exceptBindE_ok,
      show determineChildren
        (XElem.mk tagProperty [(pyStr "encoding", pyStr "base64")] (some txt) []) =
        Except.ok 0 from rfl,
      exceptBindE_ok, hval]
    rfl

/-- Witness for `c9_base64_decode_fallback`: the token `/w==` decodes to
the byte `0xFF`, which is not valid UTF-8, so the raw-text fallback path
is taken — for the node's own text and for nested `value` and `fullname`
elements alike. -/
theorem c9_base64_decode_fallback_witness :
    buildProp (b64LeafEl (some (pyStr "/w=="))) 0 =
      .ok (.node (pyStr "unknown") [] (some (pyStr "base64")) 0 none
        (pyStr "/w==") (some 0) 0 false false []) ∧
    getEncNodeText (b64ChildEl (pyStr "value") (pyStr "/w==")) (pyStr "value")
      none = .ok (some (pyStr "/w==")) ∧
    getEncNodeText (b64ChildEl (pyStr "fullname") (pyStr "/w==")) (pyStr "fullname")
      none = .ok (some (pyStr "/w==")) :=
  have h := (c9_base64_decode_fallback (pyStr "/w==") (pyStr "/w==")
    (by decide)).1 [255] rfl rfl
  ⟨h.1, h.2 (pyStr "value"), h.2 (pyStr "fullname")⟩

end Vdebug
